import Mathlib

/-!
# micro_kernel: a shallow embedding of `plugin.hpp`, `micro_kernel.hpp` and
`micro_sync_task_queue.hpp`

Modelling conventions.

* `std::map<PluginKey<T>, std::shared_ptr<IPlugin<T>>>` is a list of entries kept in
  ascending key order (the order in which a range-for visits the map); `find` and
  `insert` use only `PluginKey::operator<`, as `std::less` does.
* A plugin object is a record: the three data members of `IPlugin<T>`, the data members
  of the concrete class (`derived`) and one function per virtual hook.  A hook reads the
  plugin's status and the derived members and returns its `bool` together with the new
  derived members.  Mutating a plugin through the `shared_ptr` stored in the map is
  modelled by replacing the entry's value.
* `plugin_register` dereferences its argument before inserting it, so the map never
  holds a null pointer; map values are plugin records.
* The kernel record carries two observation fields next to the data members of the
  class: `thread_pool_` lists the tasks handed to `thread_pool_->add_task`, in order,
  and `trace` lists the hook calls made by the kernel, in order.
* A member function that locks `mtx_` is one atomic transition.
* A call that waits on a condition variable whose predicate is false returns `none`.
-/

namespace Asty

/-! ## plugin.hpp -/

/-- Plugin key `PluginKey<T>`: `name` and `version` describe the plugin, `key` is the
user-defined domain value. -/
structure PluginKey (T : Type) where
  name : String
  version : String
  key : T
deriving DecidableEq, Repr

namespace PluginKey

variable {T : Type} [LinearOrder T]

/-- Operator `PluginKey::operator==` : `key == keyn.key`. -/
def eq (a keyn : PluginKey T) : Bool := decide (a.key = keyn.key)

/-- Operator `PluginKey::operator>` : `key > keyn.key`. -/
def gt (a keyn : PluginKey T) : Bool := decide (a.key > keyn.key)

/-- Operator `PluginKey::operator<` : `key < keyn.key`. -/
def lt (a keyn : PluginKey T) : Bool := decide (a.key < keyn.key)

/-- Equivalence of two keys under `std::less<PluginKey<T>>`: neither is less than the
other.  This is the test `std::map::find` and `std::map::insert` apply. -/
def equiv (a b : PluginKey T) : Bool := !(a.lt b) && !(b.lt a)

/-- The key built by `PluginKey<T> k; k.key = key;` (default constructor, then the
domain assigned): empty name and version. -/
def ofDomain (key : T) : PluginKey T := { name := "", version := "", key := key }

end PluginKey

/-- Payload `PluginDataT`; `data` is the value of the `void *` member, which the kernel
copies and never dereferences. -/
structure PluginDataT where
  type : Int
  len : Int
  data : Nat
deriving DecidableEq, Repr

/-- Short-connection envelope `PluginMessage<T>` (members `from`, `to`, `data`). -/
structure PluginMessage (T : Type) where
  from_ : PluginKey T
  to_ : PluginKey T
  data : PluginDataT
deriving DecidableEq, Repr

/-- The data members of `IPluginStream<T>`. -/
structure IPluginStream (T : Type) where
  from_ : PluginKey T
  to_ : PluginKey T
deriving DecidableEq, Repr

/-- Enumeration `plugin_run_status`. -/
inductive plugin_run_status where
  | E_PLUGIN_STOP
  | E_PLUGIN_RUNING
  | E_PLUGIN_BAD
deriving DecidableEq, Repr

open plugin_run_status

/-- Abstract class `IPlugin<T>` together with a concrete implementation of its pure
virtual hooks. -/
structure IPlugin (T : Type) where
  plugin_key_ : PluginKey T
  plugin_st_ : plugin_run_status
  /-- The pointer `mic_kernel_srv_`: `false` is `nullptr`, `true` is the kernel. -/
  mic_kernel_srv_ : Bool
  /-- The data members of the concrete plugin class. -/
  derived : Nat
  plugin_init : plugin_run_status → Nat → Bool × Nat
  plugin_start : plugin_run_status → Nat → Bool × Nat
  plugin_task : plugin_run_status → Nat → Bool × Nat
  plugin_task_en : plugin_run_status → Nat → Bool × Nat
  plugin_stop : plugin_run_status → Nat → Bool × Nat
  plugin_exit : plugin_run_status → Nat → Bool × Nat
  notice : plugin_run_status → Nat → PluginDataT → Bool × Nat
  message : plugin_run_status → Nat → PluginMessage T → PluginMessage T →
    Bool × PluginMessage T × Nat
  stream : plugin_run_status → Nat → IPluginStream T → Bool × Nat

namespace IPlugin

variable {T : Type}

/-- Constructor `IPlugin(key)`: status `E_PLUGIN_STOP`, no kernel service; the hooks
and the initial derived members come from the concrete class. -/
def create (key : PluginKey T) (impl : IPlugin T) : IPlugin T :=
  { impl with plugin_key_ := key, plugin_st_ := E_PLUGIN_STOP, mic_kernel_srv_ := false }

/-- Member `plugin_status()`. -/
def plugin_status (p : IPlugin T) : plugin_run_status := p.plugin_st_

/-- Member `set_plugin_status(st)`. -/
def set_plugin_status (p : IPlugin T) (st : plugin_run_status) : IPlugin T :=
  { p with plugin_st_ := st }

/-- Member `set_micro_kernel_srv(this)`. -/
def set_micro_kernel_srv (p : IPlugin T) : IPlugin T :=
  { p with mic_kernel_srv_ := true }

/-- A call `p->plugin_init()`: the result and the plugin afterwards. -/
def call_init (p : IPlugin T) : Bool × IPlugin T :=
  ((p.plugin_init p.plugin_st_ p.derived).1,
   { p with derived := (p.plugin_init p.plugin_st_ p.derived).2 })

/-- A call `p->plugin_start()`. -/
def call_start (p : IPlugin T) : Bool × IPlugin T :=
  ((p.plugin_start p.plugin_st_ p.derived).1,
   { p with derived := (p.plugin_start p.plugin_st_ p.derived).2 })

/-- A call `p->plugin_stop()`. -/
def call_stop (p : IPlugin T) : Bool × IPlugin T :=
  ((p.plugin_stop p.plugin_st_ p.derived).1,
   { p with derived := (p.plugin_stop p.plugin_st_ p.derived).2 })

/-- A call `p->plugin_exit()`. -/
def call_exit (p : IPlugin T) : Bool × IPlugin T :=
  ((p.plugin_exit p.plugin_st_ p.derived).1,
   { p with derived := (p.plugin_exit p.plugin_st_ p.derived).2 })

/-- A call `p->message(request, response)`: the result, the response envelope as the
hook left it, and the plugin afterwards. -/
def call_message (p : IPlugin T) (request response : PluginMessage T) :
    Bool × PluginMessage T × IPlugin T :=
  ((p.message p.plugin_st_ p.derived request response).1,
   (p.message p.plugin_st_ p.derived request response).2.1,
   { p with derived := (p.message p.plugin_st_ p.derived request response).2.2 })

/-- A call `p->plugin_task_en()`. -/
def call_task_en (p : IPlugin T) : Bool × IPlugin T :=
  ((p.plugin_task_en p.plugin_st_ p.derived).1,
   { p with derived := (p.plugin_task_en p.plugin_st_ p.derived).2 })

/-- A call `p->plugin_task()`. -/
def call_task (p : IPlugin T) : Bool × IPlugin T :=
  ((p.plugin_task p.plugin_st_ p.derived).1,
   { p with derived := (p.plugin_task p.plugin_st_ p.derived).2 })

/-- A call `p->stream(stream)`. -/
def call_stream (p : IPlugin T) (stream : IPluginStream T) : Bool × IPlugin T :=
  ((p.stream p.plugin_st_ p.derived stream).1,
   { p with derived := (p.stream p.plugin_st_ p.derived stream).2 })

end IPlugin

/-! ## The plugin map -/

/-- The container `std::map<PluginKey<T>, std::shared_ptr<IPlugin<T>>>`, entries in
iteration order. -/
abbrev PluginMap (T : Type) := List (PluginKey T × IPlugin T)

namespace PluginMap

variable {T : Type} [LinearOrder T]

/-- Call `plugins_.find(k)`: the entry whose key is equivalent to `k`, or `none` for
`plugins_.end()`. -/
def find (m : PluginMap T) (k : PluginKey T) : Option (PluginKey T × IPlugin T) :=
  List.find? (fun e => e.1.equiv k) m

/-- Call `plugins_.insert(std::pair(k, v))`: nothing happens when an equivalent key is
present, otherwise the pair is placed at its position in key order. -/
def insert : PluginMap T → PluginKey T → IPlugin T → PluginMap T
  | [], k, v => [(k, v)]
  | e :: rest, k, v =>
    if k.lt e.1 then (k, v) :: e :: rest
    else if e.1.lt k then e :: insert rest k v
    else e :: rest

/-- A write through the `shared_ptr` stored under a key equivalent to `k`: the object
becomes `v`, the stored key stays. -/
def assign : PluginMap T → PluginKey T → IPlugin T → PluginMap T
  | [], _, _ => []
  | e :: rest, k, v =>
    if e.1.equiv k then (e.1, v) :: rest else e :: assign rest k v

/-- The domains of the registered plugins, in iteration order. -/
def domains (m : PluginMap T) : List T := List.map (fun e => e.1.key) m

end PluginMap

/-! ## micro_kernel.hpp -/

/-- A hook call made by the kernel; `d` is the domain under which the called plugin is
registered (for a plugin being registered, the domain of its own key). -/
inductive Hook (T : Type) where
  | plugin_init (d : T)
  | plugin_start (d : T)
  | plugin_task_en (d : T)
  | plugin_stop (d : T)
  | plugin_exit (d : T)
  | message (d : T) (request response : PluginMessage T)
deriving DecidableEq, Repr

/-- A task handed to `thread_pool_->add_task`: the cycle task of the scheduling loop
(`plugin.second->plugin_task()`) or the stream task (`plugin->stream(stream)`), for the
plugin registered under domain `d`. -/
inductive thread_task_t (T : Type) where
  | plugin_task (d : T)
  | stream (d : T) (s : IPluginStream T)
deriving DecidableEq, Repr

/-- Class `MicroKernel<T>`. -/
structure MicroKernel (T : Type) where
  version_ : String
  limit_ : Nat
  plugins_ : PluginMap T
  /-- Tasks passed to `thread_pool_->add_task`, oldest first. -/
  thread_pool_ : List (thread_task_t T)
  running_ : Bool
  exit_ : Bool
  /-- Hook calls made so far, oldest first. -/
  trace : List (Hook T)

namespace MicroKernel

variable {T : Type} [LinearOrder T]

/-- Macro `MICRO_KERNEL_VERSION`. -/
def MICRO_KERNEL_VERSION : String := "1.0.0"

/-- Constructor `MicroKernel(plugin_limit, thread_pool)` with a non-null pool;
`plugin_limit` is a `uint32_t`. -/
def create (plugin_limit : Nat) : MicroKernel T :=
  { version_ := MICRO_KERNEL_VERSION
    limit_ := plugin_limit % 2 ^ 32
    plugins_ := []
    thread_pool_ := []
    running_ := false
    exit_ := false
    trace := [] }

/-- Member `plugin_cnt()` : `plugins_.size()`. -/
def plugin_cnt (k : MicroKernel T) : Nat := k.plugins_.length

/-- First loop of `run()` (lines 54-65), over the entries from the current one on:
inject the kernel service, call `plugin_init()`, and on `false` set `E_PLUGIN_BAD` and
`bad_plugin.push_front(plugin.first)`.  Returns the entries afterwards, `bad_plugin`
and the trace. -/
def run_init_loop : PluginMap T → List (PluginKey T) → List (Hook T) →
    PluginMap T × List (PluginKey T) × List (Hook T)
  | [], bad_plugin, tr => ([], bad_plugin, tr)
  | plugin :: rest, bad_plugin, tr =>
    let r := plugin.2.set_micro_kernel_srv.call_init
    if !r.1 then
      let out := run_init_loop rest (plugin.1 :: bad_plugin)
        (tr ++ [Hook.plugin_init plugin.1.key])
      ((plugin.1, r.2.set_plugin_status E_PLUGIN_BAD) :: out.1, out.2)
    else
      let out := run_init_loop rest bad_plugin (tr ++ [Hook.plugin_init plugin.1.key])
      ((plugin.1, r.2) :: out.1, out.2)

/-- The two clean-up loops of `run()` (lines 68-74 and 93-99): for every staged key,
`k = plugins_.find(item)` and `if (k == plugins_.end()) plugins_.erase(k)`.  A found
entry is left alone; erasing `end()` is undefined, which is `none`. -/
def run_clear_loop (plugins : PluginMap T) : List (PluginKey T) → Option (PluginMap T)
  | [] => some plugins
  | item :: rest =>
    match plugins.find item with
    | none => none
    | some _ => run_clear_loop plugins rest

/-- Third loop of `run()` (lines 79-90): call `plugin_start()`, on `false` set
`E_PLUGIN_BAD` and stage the key; then, in either case, set `E_PLUGIN_RUNING`. -/
def run_start_loop : PluginMap T → List (PluginKey T) → List (Hook T) →
    PluginMap T × List (PluginKey T) × List (Hook T)
  | [], bad_plugin, tr => ([], bad_plugin, tr)
  | plugin :: rest, bad_plugin, tr =>
    let r := plugin.2.call_start
    if !r.1 then
      let out := run_start_loop rest (plugin.1 :: bad_plugin)
        (tr ++ [Hook.plugin_start plugin.1.key])
      ((plugin.1, (r.2.set_plugin_status E_PLUGIN_BAD).set_plugin_status E_PLUGIN_RUNING)
        :: out.1, out.2)
    else
      let out := run_start_loop rest bad_plugin (tr ++ [Hook.plugin_start plugin.1.key])
      ((plugin.1, r.2.set_plugin_status E_PLUGIN_RUNING) :: out.1, out.2)

/-- The bootstrap phase of `run()` (lines 44-106): from taking the lock to releasing it
before the scheduling loop.  `none` stands for undefined behaviour. -/
def run_bootstrap (k : MicroKernel T) : Option (MicroKernel T) :=
  if k.running_ then some k
  else
    let a := run_init_loop k.plugins_ [] k.trace
    match run_clear_loop a.1 a.2.1 with
    | none => none
    | some plugins1 =>
      let b := run_start_loop plugins1 [] a.2.2
      match run_clear_loop b.1 b.2.1 with
      | none => none
      | some plugins2 =>
        some { k with plugins_ := plugins2, trace := b.2.2, running_ := true, exit_ := false }

/-- Member `plugin_register(plugin)`: the returned `bool` and the kernel afterwards. -/
def plugin_register (k : MicroKernel T) (plugin : IPlugin T) : Bool × MicroKernel T :=
  if k.plugins_.length ≥ k.limit_ then (false, k)
  else
    match k.plugins_.find plugin.plugin_key_ with
    | some _ => (false, k)
    | none =>
      let plugin1 := plugin.set_micro_kernel_srv
      if k.running_ then
        let i := plugin1.call_init
        if !i.1 then
          (false, { k with trace := k.trace ++ [Hook.plugin_init plugin.plugin_key_.key] })
        else
          let s := i.2.call_start
          if !s.1 then
            (false, { k with trace := k.trace ++ [Hook.plugin_init plugin.plugin_key_.key,
              Hook.plugin_start plugin.plugin_key_.key] })
          else
            (true, { k with
              plugins_ := k.plugins_.insert plugin.plugin_key_
                (s.2.set_plugin_status E_PLUGIN_RUNING)
              trace := k.trace ++ [Hook.plugin_init plugin.plugin_key_.key,
                Hook.plugin_start plugin.plugin_key_.key] })
      else
        (true, { k with plugins_ := k.plugins_.insert plugin.plugin_key_ plugin1 })

/-- Member `plugin_unregister(key)`: the returned `bool` and the kernel afterwards. -/
def plugin_unregister (k : MicroKernel T) (key : T) : Bool × MicroKernel T :=
  match k.plugins_.find (PluginKey.ofDomain key) with
  | none => (false, k)
  | some item =>
    if !k.running_ then (true, k)
    else if E_PLUGIN_RUNING = item.2.plugin_status then
      (true, { k with
        plugins_ := k.plugins_.assign item.1
          (item.2.call_stop.2.call_exit.2.set_plugin_status E_PLUGIN_STOP)
        trace := k.trace ++ [Hook.plugin_stop item.1.key, Hook.plugin_exit item.1.key] })
    else (true, k)

/-- Member `plugin_key(key, item_key)`: the returned `bool` and `item_key` afterwards. -/
def plugin_key (k : MicroKernel T) (key : T) (item_key : PluginKey T) :
    Bool × PluginKey T :=
  match k.plugins_.find (PluginKey.ofDomain key) with
  | none => (false, item_key)
  | some item => (true, item.1)

/-- The request envelope `req_msg` that `message_dispatch` builds for a found entry
with stored key `first`: `to = item->first; to.key = to_key;` then `{from, to, request}`. -/
def message_request (from_ first : PluginKey T) (to_key : T) (request : PluginDataT) :
    PluginMessage T :=
  { from_ := from_, to_ := { first with key := to_key }, data := request }

/-- The response envelope `res_msg` handed to the hook: `{to, from, response}`. -/
def message_response (from_ first : PluginKey T) (to_key : T) (response : PluginDataT) :
    PluginMessage T :=
  { from_ := { first with key := to_key }, to_ := from_, data := response }

/-- Member `message_dispatch(from, to_key, request, response)`: the returned `bool`, the
caller's `response` afterwards and the kernel afterwards. -/
def message_dispatch (k : MicroKernel T) (from_ : PluginKey T) (to_key : T)
    (request response : PluginDataT) : Bool × PluginDataT × MicroKernel T :=
  match k.plugins_.find (PluginKey.ofDomain to_key) with
  | none => (false, response, k)
  | some item =>
    let req_msg := message_request from_ item.1 to_key request
    let res_msg := message_response from_ item.1 to_key response
    let r := item.2.call_message req_msg res_msg
    (r.1, r.2.1.data,
      { k with
        plugins_ := k.plugins_.assign item.1 r.2.2
        trace := k.trace ++ [Hook.message item.1.key req_msg res_msg] })

/-- Member `stream_dispatch(stream)`: the returned `bool`, the stream object afterwards and
the kernel afterwards. -/
def stream_dispatch (k : MicroKernel T) (stream : IPluginStream T) :
    Bool × IPluginStream T × MicroKernel T :=
  match k.plugins_.find stream.to_ with
  | none => (false, stream, k)
  | some item =>
    let stream1 : IPluginStream T :=
      { stream with to_ := { stream.to_ with name := item.1.name, version := item.1.version } }
    (true, stream1,
      { k with thread_pool_ := k.thread_pool_ ++ [thread_task_t.stream item.1.key stream1] })

/-- The body of a task when a worker runs it on the plugin object its lambda captured:
`plugin.second->plugin_task()` for a cycle task, `plugin->stream(stream)` for a stream
task.  Returns the hook's result and the plugin afterwards. -/
def run_task (task : thread_task_t T) (plugin : IPlugin T) : Bool × IPlugin T :=
  match task with
  | thread_task_t.plugin_task _ => plugin.call_task
  | thread_task_t.stream _ s => plugin.call_stream s

/-- The `for` loop of the scheduling loop of `run()` (lines 114-125), over the entries
from the current one on, with the value `running` of `running_`: when the flag is
false the scan is left (`goto __exit`); otherwise `plugin_task_en()` is called and, on
`true`, the cycle task is handed to the pool.  Returns the entries afterwards, the
submitted tasks and the trace. -/
def run_scan_loop (running : Bool) : PluginMap T → List (thread_task_t T) →
    List (Hook T) → PluginMap T × List (thread_task_t T) × List (Hook T)
  | [], pool, tr => ([], pool, tr)
  | plugin :: rest, pool, tr =>
    if !running then (plugin :: rest, pool, tr)
    else
      let r := plugin.2.call_task_en
      if r.1 then
        let out := run_scan_loop running rest
          (pool ++ [thread_task_t.plugin_task plugin.1.key])
          (tr ++ [Hook.plugin_task_en plugin.1.key])
        ((plugin.1, r.2) :: out.1, out.2)
      else
        let out := run_scan_loop running rest pool
          (tr ++ [Hook.plugin_task_en plugin.1.key])
        ((plugin.1, r.2) :: out.1, out.2)

/-- One pass of `while (running_)` in `run()` (lines 109-133): when `running_` is
false the loop is left and `exit_` is set at `__exit`; otherwise the registry is
scanned once under the lock. -/
def run_scan (k : MicroKernel T) : MicroKernel T :=
  if !k.running_ then { k with exit_ := true }
  else
    let out := run_scan_loop k.running_ k.plugins_ k.thread_pool_ k.trace
    { k with plugins_ := out.1, thread_pool_ := out.2.1, trace := out.2.2 }

/-- The `for` loop of `stop()` (lines 150-156): a plugin whose status is
`E_PLUGIN_RUNING` gets `plugin_stop()`, `plugin_exit()` and status `E_PLUGIN_STOP`;
any other plugin is skipped. -/
def stop_loop : PluginMap T → List (Hook T) → PluginMap T × List (Hook T)
  | [], tr => ([], tr)
  | plugin :: rest, tr =>
    if E_PLUGIN_RUNING = plugin.2.plugin_status then
      let out := stop_loop rest
        (tr ++ [Hook.plugin_stop plugin.1.key, Hook.plugin_exit plugin.1.key])
      ((plugin.1, plugin.2.call_stop.2.call_exit.2.set_plugin_status E_PLUGIN_STOP) :: out.1,
        out.2)
    else
      let out := stop_loop rest tr
      (plugin :: out.1, out.2)

/-- The part of `stop()` after `micro_kernel_exited_.wait(lck, [this] { return exit_; })`:
`none` while `exit_` is false (the caller waits), otherwise the teardown loop. -/
def stop_teardown (k : MicroKernel T) : Option (MicroKernel T) :=
  if !k.exit_ then none
  else
    let out := stop_loop k.plugins_ k.trace
    some { k with plugins_ := out.1, trace := out.2 }

/-- Member `stop()`: nothing when the kernel is not running; otherwise `running_ = false`, the
thread inside `run()` sees the flag and reaches `__exit` (one `run_scan` pass), and the
teardown follows. -/
def stop (k : MicroKernel T) : Option (MicroKernel T) :=
  if !k.running_ then some k
  else stop_teardown (run_scan { k with running_ := false })

/-- A number `n` of consecutive passes of the scheduling loop. -/
def run_scans : Nat → MicroKernel T → MicroKernel T
  | 0, k => k
  | n + 1, k => run_scans n k.run_scan

/-- Member `run()` from call to return, as the calling thread sees it: when the kernel
is already running it returns at once (lines 47-49); otherwise the bootstrap, then
`scans` passes of the scheduling loop, after which another thread has cleared
`running_` in `stop()` and the pass that sees the flag false leaves through `__exit`. -/
def run (k : MicroKernel T) (scans : Nat) : Option (MicroKernel T) :=
  if k.running_ then some k
  else
    match k.run_bootstrap with
    | none => none
    | some k1 => some (run_scan { run_scans scans k1 with running_ := false })

/-- An operation on the kernel made by some thread. -/
inductive Op (T : Type) where
  | plugin_register (plugin : IPlugin T)
  | plugin_unregister (key : T)
  | run_bootstrap
  | message_dispatch (from_ : PluginKey T) (to_key : T) (request response : PluginDataT)
  | stream_dispatch (stream : IPluginStream T)

/-- The kernel after one operation; `none` when the operation has undefined behaviour. -/
def step (k : MicroKernel T) : Op T → Option (MicroKernel T)
  | Op.plugin_register plugin => some (k.plugin_register plugin).2
  | Op.plugin_unregister key => some (k.plugin_unregister key).2
  | Op.run_bootstrap => k.run_bootstrap
  | Op.message_dispatch from_ to_key request response =>
    some (k.message_dispatch from_ to_key request response).2.2
  | Op.stream_dispatch stream => some (k.stream_dispatch stream).2.2

/-- The kernel after a sequence of operations. -/
def steps (k : MicroKernel T) : List (Op T) → Option (MicroKernel T)
  | [] => some k
  | op :: rest =>
    match k.step op with
    | none => none
    | some k1 => steps k1 rest

/-- Register the plugins of a list one after the other: the returned `bool`s in call
order and the kernel afterwards. -/
def register_all (k : MicroKernel T) : List (IPlugin T) → List Bool × MicroKernel T
  | [] => ([], k)
  | plugin :: rest =>
    let r := k.plugin_register plugin
    let out := register_all r.2 rest
    (r.1 :: out.1, out.2)

end MicroKernel

/-! ## micro_sync_task_queue.hpp -/

/-- Class `MicroSyncTaskQueue<T>`: the list `queue_` (front first), the `int` bound
`max_size_` and the flag `stop_`. -/
structure MicroSyncTaskQueue (T : Type) where
  queue_ : List T
  max_size_ : Int
  stop_ : Bool

namespace MicroSyncTaskQueue

variable {T : Type}

/-- Conversion of a `size_t` value to `int` (32 bits, two's complement), as in
`int count() { return queue_.size(); }`. -/
def to_int (n : Nat) : Int := ((n + 2 ^ 31) % 2 ^ 32 : Nat) - 2 ^ 31

/-- Conversion of an `int` to `size_t` (64 bits), as in the comparison
`queue_.size() >= max_size_`. -/
def to_size_t (i : Int) : Nat := (i % 2 ^ 64).toNat

/-- Constructor `MicroSyncTaskQueue(size)`: an empty list and `max_size_ = size`.  The
member `stop_` has no initialiser; `stop_init` is the value it happens to hold. -/
def create (size : Int) (stop_init : Bool) : MicroSyncTaskQueue T :=
  { queue_ := [], max_size_ := size, stop_ := stop_init }

/-- Member `count()` : `queue_.size()` returned as `int`. -/
def count (q : MicroSyncTaskQueue T) : Int := to_int q.queue_.length

/-- Member `full()` : `queue_.size() >= max_size_`, compared as `size_t`. -/
def full (q : MicroSyncTaskQueue T) : Bool :=
  decide (q.queue_.length ≥ to_size_t q.max_size_)

/-- Member `push(obj)`: `none` while the caller waits on `not_full_` (predicate
`stop_ || count() < max_size_` false); otherwise the returned `bool` and the queue
afterwards. -/
def push (q : MicroSyncTaskQueue T) (obj : T) : Option (Bool × MicroSyncTaskQueue T) :=
  if !(q.stop_ || decide (q.count < q.max_size_)) then none
  else if q.stop_ then some (false, q)
  else some (true, { q with queue_ := q.queue_ ++ [obj] })

/-- Member `empty()` : `queue_.empty()`. -/
def empty (q : MicroSyncTaskQueue T) : Bool := q.queue_.isEmpty

/-- Member `stop()`: sets `stop_` and wakes all waiters. -/
def stop (q : MicroSyncTaskQueue T) : MicroSyncTaskQueue T := { q with stop_ := true }

/-- Member `pop(t)`: `none` while the caller waits on `not_empty_` (predicate
`stop_ || !queue_.empty()` false); otherwise the returned `bool`, `t` afterwards and
the queue afterwards. -/
def pop (q : MicroSyncTaskQueue T) (t : T) : Option (Bool × T × MicroSyncTaskQueue T) :=
  if !(q.stop_ || !q.queue_.isEmpty) then none
  else if q.stop_ then some (false, t, q)
  else
    match q.queue_ with
    | front :: rest => some (true, front, { q with queue_ := rest })
    | [] => none

/-- Call `pop` repeatedly, `n` times, on the same output variable: the returned
`bool`s in call order, `t` afterwards and the queue afterwards; `none` when a call
waits. -/
def pop_n : Nat → MicroSyncTaskQueue T → T → Option (List Bool × T × MicroSyncTaskQueue T)
  | 0, q, t => some ([], t, q)
  | n + 1, q, t =>
    match q.pop t with
    | none => none
    | some r =>
      match pop_n n r.2.2 r.2.1 with
      | none => none
      | some out => some (r.1 :: out.1, out.2)

/-- A call on the queue made by some thread. -/
inductive Call (T : Type) where
  | push (obj : T)
  | pop (t : T)
  | stop

/-- The queue after one call that returns (whatever it returns); `none` when the
caller would wait, that is when the call is not admitted in this state. -/
def step (q : MicroSyncTaskQueue T) : Call T → Option (MicroSyncTaskQueue T)
  | Call.push obj => (q.push obj).map (fun r => r.2)
  | Call.pop t => (q.pop t).map (fun r => r.2.2)
  | Call.stop => some q.stop

/-- The queue after a sequence of calls, each admitted in its turn. -/
def steps (q : MicroSyncTaskQueue T) : List (Call T) → Option (MicroSyncTaskQueue T)
  | [] => some q
  | c :: rest =>
    match q.step c with
    | none => none
    | some q1 => steps q1 rest

/-- A successful call: `push(obj)` returning true, or `pop` returning true. -/
inductive Success (T : Type) where
  | push (obj : T)
  | pop

/-- The items pushed by a sequence of successful calls, in push order. -/
def pushed : List (Success T) → List T
  | [] => []
  | Success.push obj :: rest => obj :: pushed rest
  | Success.pop :: rest => pushed rest

/-- Run a sequence of calls that all succeed, `pop` writing into the same variable
`t`: the items handed out by the pops, in order, and the queue afterwards; `none` as
soon as a call waits or returns false. -/
def run_successful (q : MicroSyncTaskQueue T) (t : T) :
    List (Success T) → Option (List T × MicroSyncTaskQueue T)
  | [] => some ([], q)
  | Success.push obj :: rest =>
    match q.push obj with
    | some (true, q1) => run_successful q1 t rest
    | _ => none
  | Success.pop :: rest =>
    match q.pop t with
    | some (true, item, q1) =>
      match run_successful q1 item rest with
      | some out => some (item :: out.1, out.2)
      | none => none
    | _ => none

end MicroSyncTaskQueue

end Asty

/-! ## Concrete plugins used to evaluate the code -/

namespace Demo

open Asty plugin_run_status

/-- A concrete plugin class over `int`-like domains whose `plugin_init` and
`plugin_start` return the given constants, whose other hooks return `true`, and whose
`message` hook leaves the response envelope as it received it.  No hook changes the
derived members. -/
def ConstPlugin (key : PluginKey Nat) (init_result start_result : Bool) : IPlugin Nat :=
  IPlugin.create key
    { plugin_key_ := key
      plugin_st_ := E_PLUGIN_STOP
      mic_kernel_srv_ := false
      derived := 0
      plugin_init := fun _ s => (init_result, s)
      plugin_start := fun _ s => (start_result, s)
      plugin_task := fun _ s => (true, s)
      plugin_task_en := fun _ s => (true, s)
      plugin_stop := fun _ s => (true, s)
      plugin_exit := fun _ s => (true, s)
      notice := fun _ s _ => (true, s)
      message := fun _ s _ response => (true, response, s)
      stream := fun _ s _ => (true, s) }

/-- A kernel with limit 4 in which one plugin, domain 0, has been registered before
`run()`. -/
def kernel_with (init_result start_result : Bool) : MicroKernel Nat :=
  ((MicroKernel.create 4).plugin_register
    (ConstPlugin { name := "basic", version := "1.0.0", key := 0 } init_result start_result)).2

/-- Class `AlarmPlugin` of `demo.cpp`: every lifecycle hook returns `true`; `message`
prints into the caller's buffer (the pointer is unchanged), sets
`response.data.len = strlen("hihi basic")` and returns `true`. -/
def AlarmPlugin (key : PluginKey Nat) : IPlugin Nat :=
  IPlugin.create key
    { plugin_key_ := key
      plugin_st_ := E_PLUGIN_STOP
      mic_kernel_srv_ := false
      derived := 0
      plugin_init := fun _ s => (true, s)
      plugin_start := fun _ s => (true, s)
      plugin_task := fun _ s => (true, s)
      plugin_task_en := fun _ s => (true, s)
      plugin_stop := fun _ s => (true, s)
      plugin_exit := fun _ s => (true, s)
      notice := fun _ s _ => (true, s)
      message := fun _ s _ response =>
        (true, { response with data := { response.data with len := 10 } }, s)
      stream := fun _ s _ => (true, s) }

/-- Key of the basic plugin in `main`. -/
def basic_key : PluginKey Nat := { name := "basic", version := "1.0.0", key := 0 }

/-- Key of the first alarm plugin in `main` (the demo names it "basic" too). -/
def alarm_key : PluginKey Nat := { name := "basic", version := "1.0.0", key := 1 }

/-- The entry under which the first alarm plugin is stored once registered. -/
def alarm_entry : PluginKey Nat × IPlugin Nat :=
  (alarm_key, (AlarmPlugin alarm_key).set_micro_kernel_srv)

/-- The kernel of `main` (limit 200) after registering the basic plugin and the first
alarm plugin, before `run()`. -/
def kernel_demo : MicroKernel Nat :=
  (((MicroKernel.create 200).plugin_register (ConstPlugin basic_key true true)).2.plugin_register
    (AlarmPlugin alarm_key)).2

/-- The request of `BasicPlugin::plugin_task`: `len = strlen("hello alarm")`, `data` the
address of `reqb`; `type` is not assigned there and is taken as 0. -/
def demo_request : PluginDataT := { type := 0, len := 11, data := 1000 }

/-- The response buffer of `BasicPlugin::plugin_task`: `len = sizeof(resb)`, `data` the
address of `resb`. -/
def demo_response : PluginDataT := { type := 0, len := 128, data := 2000 }

/-- The demo kernel once `run()` has finished its bootstrap phase. -/
def kernel_running : MicroKernel Nat := (kernel_demo.run_bootstrap).getD kernel_demo

/-- A plugin like `AlarmPlugin` that runs its own thread: `plugin_task_en` returns
`false`. -/
def QuietPlugin (key : PluginKey Nat) : IPlugin Nat :=
  { AlarmPlugin key with plugin_task_en := fun _ s => (false, s) }

/-- Key of a plugin registered under domain 2. -/
def quiet_key : PluginKey Nat := { name := "quiet", version := "2.0.0", key := 2 }

/-- The running demo kernel after one more plugin, domain 2, has been registered
while running. -/
def kernel_mixed : MicroKernel Nat := (kernel_running.plugin_register (QuietPlugin quiet_key)).2

/-- A stream opened by the basic plugin towards domain 1; only the domain of `to` is
filled in. -/
def demo_stream : IPluginStream Nat := { from_ := basic_key, to_ := PluginKey.ofDomain 1 }

/-- A plugin like `AlarmPlugin` whose `message` hook writes a reply (type 7, length 3,
same buffer address) and then returns `false`. -/
def RefusingPlugin (key : PluginKey Nat) : IPlugin Nat :=
  { AlarmPlugin key with
    message := fun _ s _ response =>
      (false, { response with data := { type := 7, len := 3, data := response.data.data } }, s) }

/-- Key of a plugin registered under domain 3. -/
def refusing_key : PluginKey Nat := { name := "refusing", version := "3.0.0", key := 3 }

/-- The entry under which the refusing plugin is stored once registered. -/
def refusing_entry : PluginKey Nat × IPlugin Nat :=
  (refusing_key, (RefusingPlugin refusing_key).set_micro_kernel_srv)

/-- The demo kernel after the refusing plugin has been registered as well. -/
def kernel_refusing : MicroKernel Nat := (kernel_demo.plugin_register (RefusingPlugin refusing_key)).2

end Demo

/-! ## Theorems -/

namespace Asty

open plugin_run_status

section MapLemmas

variable {T : Type} [LinearOrder T]

theorem PluginKey.equiv_iff (a b : PluginKey T) : a.equiv b = true ↔ a.key = b.key := by
  simp only [PluginKey.equiv, PluginKey.lt, Bool.and_eq_true, Bool.not_eq_true',
    decide_eq_false_iff_not, not_lt]
  constructor
  · rintro ⟨h1, h2⟩
    exact le_antisymm h2 h1
  · intro h
    exact ⟨le_of_eq h.symm, le_of_eq h⟩

theorem PluginKey.equiv_self (a : PluginKey T) : a.equiv a = true :=
  (PluginKey.equiv_iff a a).2 rfl

theorem PluginMap.find_congr (m : PluginMap T) (k1 k2 : PluginKey T)
    (h : k1.key = k2.key) : m.find k1 = m.find k2 := by
  unfold PluginMap.find
  congr 1
  funext e
  simp only [PluginKey.equiv, PluginKey.lt, h]

theorem PluginMap.find_eq_none_iff (m : PluginMap T) (k : PluginKey T) :
    m.find k = none ↔ k.key ∉ m.domains := by
  unfold PluginMap.find PluginMap.domains
  rw [List.find?_eq_none]
  simp only [List.mem_map, not_exists, not_and, PluginKey.equiv_iff]

theorem PluginMap.find_some (m : PluginMap T) (k : PluginKey T)
    (e : PluginKey T × IPlugin T) (h : m.find k = some e) : e ∈ m ∧ e.1.key = k.key := by
  unfold PluginMap.find at h
  refine ⟨List.mem_of_find?_eq_some h, ?_⟩
  have := List.find?_some h
  exact (PluginKey.equiv_iff _ _).1 this

theorem PluginMap.find_isSome_of_mem (m : PluginMap T) (e : PluginKey T × IPlugin T)
    (he : e ∈ m) : ∃ e1, m.find e.1 = some e1 := by
  cases hf : m.find e.1 with
  | some e1 => exact ⟨e1, rfl⟩
  | none =>
    exfalso
    rw [PluginMap.find_eq_none_iff] at hf
    exact hf (List.mem_map.2 ⟨e, he, rfl⟩)

theorem PluginMap.find_of_mem_nodup (m : PluginMap T) (e : PluginKey T × IPlugin T)
    (hn : m.domains.Nodup) (he : e ∈ m) (k : PluginKey T) (hk : k.key = e.1.key) :
    m.find k = some e := by
  induction m with
  | nil => cases he
  | cons x rest ih =>
    unfold PluginMap.domains at hn
    rw [List.map_cons, List.nodup_cons] at hn
    unfold PluginMap.find
    rw [List.find?_cons]
    rcases List.mem_cons.1 he with rfl | hmem
    · have : e.1.equiv k = true := (PluginKey.equiv_iff _ _).2 hk.symm
      rw [this]
    · have hne : x.1.equiv k = false := by
        rw [Bool.eq_false_iff]
        intro hx
        rw [PluginKey.equiv_iff] at hx
        apply hn.1
        rw [hx, hk]
        exact List.mem_map.2 ⟨e, hmem, rfl⟩
      rw [hne]
      exact ih hn.2 hmem

theorem PluginMap.keys_assign (m : PluginMap T) (k : PluginKey T) (v : IPlugin T) :
    List.map Prod.fst (m.assign k v) = List.map Prod.fst m := by
  induction m with
  | nil => rfl
  | cons e rest ih =>
    unfold PluginMap.assign
    split
    · rfl
    · rw [List.map_cons, List.map_cons, ih]

omit [LinearOrder T] in
theorem PluginMap.domains_eq_of_keys (m1 m2 : PluginMap T)
    (h : List.map Prod.fst m1 = List.map Prod.fst m2) : m1.domains = m2.domains := by
  have e : ∀ m : PluginMap T, m.domains = List.map PluginKey.key (List.map Prod.fst m) := by
    intro m
    unfold PluginMap.domains
    rw [List.map_map]
    rfl
  rw [e, e, h]

theorem PluginMap.domains_assign (m : PluginMap T) (k : PluginKey T) (v : IPlugin T) :
    (m.assign k v).domains = m.domains :=
  PluginMap.domains_eq_of_keys _ _ (PluginMap.keys_assign m k v)

theorem PluginMap.mem_domains_insert (m : PluginMap T) (k : PluginKey T) (v : IPlugin T)
    (x : T) (hx : x ∈ (m.insert k v).domains) : x = k.key ∨ x ∈ m.domains := by
  induction m with
  | nil =>
    simp only [PluginMap.insert, PluginMap.domains, List.map_cons, List.map_nil,
      List.mem_singleton] at hx
    exact Or.inl hx
  | cons e rest ih =>
    unfold PluginMap.insert at hx
    split at hx
    · simp only [PluginMap.domains, List.map_cons, List.mem_cons] at hx ⊢
      exact hx
    · split at hx
      · simp only [PluginMap.domains, List.map_cons, List.mem_cons] at hx ih ⊢
        rcases hx with h | h
        · exact Or.inr (Or.inl h)
        · rcases ih h with h1 | h1
          · exact Or.inl h1
          · exact Or.inr (Or.inr h1)
      · exact Or.inr hx

theorem PluginMap.sorted_insert (m : PluginMap T) (k : PluginKey T) (v : IPlugin T)
    (hs : List.Pairwise (fun a b => a < b) m.domains) :
    List.Pairwise (fun a b => a < b) (m.insert k v).domains := by
  induction m with
  | nil => simp [PluginMap.insert, PluginMap.domains]
  | cons e rest ih =>
    have hs1 := hs
    unfold PluginMap.domains at hs1
    rw [List.map_cons, List.pairwise_cons] at hs1
    unfold PluginMap.insert
    split
    · rename_i hlt
      have hlt1 : k.key < e.1.key := by simpa [PluginKey.lt] using hlt
      show List.Pairwise _ (k.key :: PluginMap.domains (e :: rest))
      rw [List.pairwise_cons]
      refine ⟨?_, hs⟩
      intro x hx
      rcases List.mem_cons.1 hx with rfl | hx1
      · exact hlt1
      · exact lt_trans hlt1 (hs1.1 x hx1)
    · split
      · rename_i hlt
        have hlt1 : e.1.key < k.key := by simpa [PluginKey.lt] using hlt
        show List.Pairwise _ (e.1.key :: PluginMap.domains (PluginMap.insert rest k v))
        rw [List.pairwise_cons]
        refine ⟨?_, ih hs1.2⟩
        intro x hx
        rcases PluginMap.mem_domains_insert rest k v x hx with rfl | hx1
        · exact hlt1
        · exact hs1.1 x hx1
      · exact hs

theorem PluginMap.length_insert (m : PluginMap T) (k : PluginKey T) (v : IPlugin T)
    (h : m.find k = none) : (m.insert k v).length = m.length + 1 := by
  induction m with
  | nil => rfl
  | cons e rest ih =>
    unfold PluginMap.find at h
    rw [List.find?_cons] at h
    cases hek : e.1.equiv k with
    | true => rw [hek] at h; cases h
    | false =>
      rw [hek] at h
      unfold PluginMap.insert
      split
      · rfl
      · split
        · rw [List.length_cons, ih h, List.length_cons]
        · rename_i h1 h2
          exfalso
          simp only [PluginKey.equiv, Bool.and_eq_false_imp, Bool.not_eq_true',
            Bool.not_eq_false'] at hek
          simp only [Bool.not_eq_true] at h1 h2
          have := hek h2
          rw [this] at h1
          cases h1

theorem PluginMap.mem_insert_domains (m : PluginMap T) (k : PluginKey T) (v : IPlugin T)
    (x : T) (hx : x ∈ m.domains) : x ∈ (m.insert k v).domains := by
  induction m with
  | nil => cases hx
  | cons e rest ih =>
    unfold PluginMap.insert
    split
    · exact List.mem_cons_of_mem _ hx
    · split
      · simp only [PluginMap.domains, List.map_cons, List.mem_cons] at hx ih ⊢
        rcases hx with h | h
        · exact Or.inl h
        · exact Or.inr (ih h)
      · exact hx

end MapLemmas

section RunLemmas

variable {T : Type} [LinearOrder T]

omit [LinearOrder T] in
theorem MicroKernel.keys_run_init_loop (m : PluginMap T) (bad : List (PluginKey T))
    (tr : List (Hook T)) :
    List.map Prod.fst (MicroKernel.run_init_loop m bad tr).1 = List.map Prod.fst m := by
  induction m generalizing bad tr with
  | nil => rfl
  | cons e rest ih =>
    unfold MicroKernel.run_init_loop
    dsimp only
    split
    · rw [List.map_cons, List.map_cons, ih]
    · rw [List.map_cons, List.map_cons, ih]

omit [LinearOrder T] in
theorem MicroKernel.bad_run_init_loop (m : PluginMap T) (bad : List (PluginKey T))
    (tr : List (Hook T)) (x : PluginKey T)
    (hx : x ∈ (MicroKernel.run_init_loop m bad tr).2.1) :
    x ∈ bad ∨ x ∈ List.map Prod.fst m := by
  induction m generalizing bad tr with
  | nil => exact Or.inl hx
  | cons e rest ih =>
    unfold MicroKernel.run_init_loop at hx
    dsimp only at hx
    split at hx
    · rcases ih _ _ hx with h | h
      · rcases List.mem_cons.1 h with rfl | h1
        · exact Or.inr (List.mem_cons_self _ _)
        · exact Or.inl h1
      · exact Or.inr (List.mem_cons_of_mem _ h)
    · rcases ih _ _ hx with h | h
      · exact Or.inl h
      · exact Or.inr (List.mem_cons_of_mem _ h)

omit [LinearOrder T] in
theorem MicroKernel.keys_run_start_loop (m : PluginMap T) (bad : List (PluginKey T))
    (tr : List (Hook T)) :
    List.map Prod.fst (MicroKernel.run_start_loop m bad tr).1 = List.map Prod.fst m := by
  induction m generalizing bad tr with
  | nil => rfl
  | cons e rest ih =>
    unfold MicroKernel.run_start_loop
    dsimp only
    split
    · rw [List.map_cons, List.map_cons, ih]
    · rw [List.map_cons, List.map_cons, ih]

omit [LinearOrder T] in
theorem MicroKernel.bad_run_start_loop (m : PluginMap T) (bad : List (PluginKey T))
    (tr : List (Hook T)) (x : PluginKey T)
    (hx : x ∈ (MicroKernel.run_start_loop m bad tr).2.1) :
    x ∈ bad ∨ x ∈ List.map Prod.fst m := by
  induction m generalizing bad tr with
  | nil => exact Or.inl hx
  | cons e rest ih =>
    unfold MicroKernel.run_start_loop at hx
    dsimp only at hx
    split at hx
    · rcases ih _ _ hx with h | h
      · rcases List.mem_cons.1 h with rfl | h1
        · exact Or.inr (List.mem_cons_self _ _)
        · exact Or.inl h1
      · exact Or.inr (List.mem_cons_of_mem _ h)
    · rcases ih _ _ hx with h | h
      · exact Or.inl h
      · exact Or.inr (List.mem_cons_of_mem _ h)

/-- The clean-up loops never erase: every staged key is found, so the map is returned
as it was. -/
theorem MicroKernel.run_clear_loop_eq (m : PluginMap T) (bad : List (PluginKey T))
    (h : ∀ x ∈ bad, x ∈ List.map Prod.fst m) :
    MicroKernel.run_clear_loop m bad = some m := by
  induction bad with
  | nil => rfl
  | cons item rest ih =>
    unfold MicroKernel.run_clear_loop
    obtain ⟨e, he, hfst⟩ := List.mem_map.1 (h item (List.mem_cons_self _ _))
    obtain ⟨e1, he1⟩ := PluginMap.find_isSome_of_mem m e he
    rw [← hfst, he1]
    exact ih (fun x hx => h x (List.mem_cons_of_mem _ hx))

/-- Closed form of the bootstrap of `run()` on a kernel that is not running. -/
theorem MicroKernel.run_bootstrap_eq (k : MicroKernel T) (hr : k.running_ = false) :
    k.run_bootstrap = some { k with
      plugins_ := (MicroKernel.run_start_loop
        (MicroKernel.run_init_loop k.plugins_ [] k.trace).1 []
        (MicroKernel.run_init_loop k.plugins_ [] k.trace).2.2).1
      trace := (MicroKernel.run_start_loop
        (MicroKernel.run_init_loop k.plugins_ [] k.trace).1 []
        (MicroKernel.run_init_loop k.plugins_ [] k.trace).2.2).2.2
      running_ := true
      exit_ := false } := by
  unfold MicroKernel.run_bootstrap
  rw [hr]
  have h1 : MicroKernel.run_clear_loop (MicroKernel.run_init_loop k.plugins_ [] k.trace).1
      (MicroKernel.run_init_loop k.plugins_ [] k.trace).2.1 =
      some (MicroKernel.run_init_loop k.plugins_ [] k.trace).1 := by
    apply MicroKernel.run_clear_loop_eq
    intro x hx
    rcases MicroKernel.bad_run_init_loop _ _ _ x hx with h | h
    · cases h
    · rw [MicroKernel.keys_run_init_loop]
      exact h
  have h2 : ∀ (m : PluginMap T) (tr : List (Hook T)),
      MicroKernel.run_clear_loop (MicroKernel.run_start_loop m [] tr).1
        (MicroKernel.run_start_loop m [] tr).2.1 =
      some (MicroKernel.run_start_loop m [] tr).1 := by
    intro m tr
    apply MicroKernel.run_clear_loop_eq
    intro x hx
    rcases MicroKernel.bad_run_start_loop _ _ _ x hx with h | h
    · cases h
    · rw [MicroKernel.keys_run_start_loop]
      exact h
  simp only [Bool.false_eq_true, if_false, h1, h2]

/-- The bootstrap of `run()` always completes and leaves the stored keys as they were. -/
theorem MicroKernel.run_bootstrap_keys (k : MicroKernel T) :
    ∃ k1, k.run_bootstrap = some k1 ∧
      List.map Prod.fst k1.plugins_ = List.map Prod.fst k.plugins_ := by
  cases hr : k.running_ with
  | true =>
    refine ⟨k, ?_, rfl⟩
    unfold MicroKernel.run_bootstrap
    rw [hr]
    rfl
  | false =>
    refine ⟨_, MicroKernel.run_bootstrap_eq k hr, ?_⟩
    dsimp only
    rw [MicroKernel.keys_run_start_loop, MicroKernel.keys_run_init_loop]

end RunLemmas

section RegisterLemmas

variable {T : Type} [LinearOrder T]

theorem MicroKernel.plugin_register_full (k : MicroKernel T) (plugin : IPlugin T)
    (h : k.limit_ ≤ k.plugins_.length) : k.plugin_register plugin = (false, k) := by
  unfold MicroKernel.plugin_register
  rw [if_pos h]

theorem MicroKernel.plugin_register_present (k : MicroKernel T) (plugin : IPlugin T)
    (h : plugin.plugin_key_.key ∈ k.plugins_.domains) :
    k.plugin_register plugin = (false, k) := by
  unfold MicroKernel.plugin_register
  split
  · rfl
  · cases hf : k.plugins_.find plugin.plugin_key_ with
    | some e => rfl
    | none =>
      exfalso
      exact (PluginMap.find_eq_none_iff _ _).1 hf h

theorem MicroKernel.plugin_register_idle (k : MicroKernel T) (plugin : IPlugin T)
    (hr : k.running_ = false) (hc : k.plugins_.length < k.limit_)
    (hf : plugin.plugin_key_.key ∉ k.plugins_.domains) :
    k.plugin_register plugin =
      (true, { k with
        plugins_ := k.plugins_.insert plugin.plugin_key_ plugin.set_micro_kernel_srv }) := by
  unfold MicroKernel.plugin_register
  rw [if_neg (not_le.2 hc), (PluginMap.find_eq_none_iff _ _).2 hf]
  simp only [hr, Bool.false_eq_true, if_false]

theorem MicroKernel.register_all_cons (k : MicroKernel T) (p : IPlugin T)
    (rest : List (IPlugin T)) :
    k.register_all (p :: rest) =
      ((k.plugin_register p).1 :: ((k.plugin_register p).2.register_all rest).1,
        ((k.plugin_register p).2.register_all rest).2) := rfl

theorem MicroKernel.register_all_fresh (k : MicroKernel T) (ps : List (IPlugin T))
    (hr : k.running_ = false) (hc : k.plugins_.length + ps.length ≤ k.limit_)
    (hd : (List.map (fun p => p.plugin_key_.key) ps).Nodup)
    (hf : ∀ p ∈ ps, p.plugin_key_.key ∉ k.plugins_.domains) :
    (k.register_all ps).1 = List.replicate ps.length true ∧
    (k.register_all ps).2.plugins_.length = k.plugins_.length + ps.length ∧
    (k.register_all ps).2.limit_ = k.limit_ ∧
    (k.register_all ps).2.running_ = false := by
  induction ps generalizing k with
  | nil => exact ⟨rfl, rfl, rfl, hr⟩
  | cons p rest ih =>
    rw [List.length_cons] at hc
    rw [List.map_cons, List.nodup_cons] at hd
    have hp : p.plugin_key_.key ∉ k.plugins_.domains := hf p (List.mem_cons_self _ _)
    have hreg := MicroKernel.plugin_register_idle k p hr (by omega) hp
    have hlen : (k.plugin_register p).2.plugins_.length = k.plugins_.length + 1 := by
      rw [hreg]
      exact PluginMap.length_insert _ _ _ ((PluginMap.find_eq_none_iff _ _).2 hp)
    have hfresh : ∀ q ∈ rest, q.plugin_key_.key ∉ (k.plugin_register p).2.plugins_.domains := by
      intro q hq hmem
      rw [hreg] at hmem
      rcases PluginMap.mem_domains_insert _ _ _ _ hmem with h | h
      · apply hd.1
        rw [← h]
        exact List.mem_map.2 ⟨q, hq, rfl⟩
      · exact hf q (List.mem_cons_of_mem _ hq) h
    have := ih (k.plugin_register p).2 (by rw [hreg]; exact hr)
      (by rw [hlen, hreg]; dsimp only; omega) hd.2 hfresh
    rw [MicroKernel.register_all_cons]
    dsimp only
    refine ⟨?_, ?_, ?_, this.2.2.2⟩
    · rw [this.1, List.length_cons, List.replicate_succ, hreg]
    · rw [this.2.1, hlen, List.length_cons]
      omega
    · rw [this.2.2.1, hreg]

theorem MicroKernel.register_all_append (k : MicroKernel T) (ps qs : List (IPlugin T)) :
    k.register_all (ps ++ qs) =
      ((k.register_all ps).1 ++ ((k.register_all ps).2.register_all qs).1,
        ((k.register_all ps).2.register_all qs).2) := by
  induction ps generalizing k with
  | nil => rfl
  | cons p rest ih =>
    rw [List.cons_append, MicroKernel.register_all_cons, ih, MicroKernel.register_all_cons]
    rfl

theorem PluginMap.filter_length_le_one (m : PluginMap T) (hn : m.domains.Nodup) (d : T) :
    (List.filter (fun e => decide (e.1.key = d)) m).length ≤ 1 := by
  induction m with
  | nil => exact Nat.zero_le _
  | cons e rest ih =>
    unfold PluginMap.domains at hn
    rw [List.map_cons, List.nodup_cons] at hn
    rw [List.filter_cons]
    split
    · rename_i he
      have he1 : e.1.key = d := by simpa using he
      have : List.filter (fun e => decide (e.1.key = d)) rest = [] := by
        rw [List.filter_eq_nil_iff]
        intro x hx hxd
        apply hn.1
        rw [he1]
        exact List.mem_map.2 ⟨x, hx, by simpa using hxd⟩
      rw [List.length_cons, this]
      rfl
    · exact ih hn.2

theorem MicroKernel.step_sorted (k : MicroKernel T) (op : Op T)
    (hs : List.Pairwise (fun a b => a < b) k.plugins_.domains) :
    ∃ k1, k.step op = some k1 ∧ List.Pairwise (fun a b => a < b) k1.plugins_.domains := by
  cases op with
  | plugin_register plugin =>
    refine ⟨_, rfl, ?_⟩
    unfold MicroKernel.plugin_register
    split
    · exact hs
    · split
      · exact hs
      · dsimp only
        split
        · split
          · exact hs
          · split
            · exact hs
            · exact PluginMap.sorted_insert _ _ _ hs
        · exact PluginMap.sorted_insert _ _ _ hs
  | plugin_unregister key =>
    refine ⟨_, rfl, ?_⟩
    unfold MicroKernel.plugin_unregister
    split
    · exact hs
    · split
      · exact hs
      · split
        · dsimp only
          rw [PluginMap.domains_assign]
          exact hs
        · exact hs
  | run_bootstrap =>
    obtain ⟨k1, h1, h2⟩ := MicroKernel.run_bootstrap_keys k
    refine ⟨k1, h1, ?_⟩
    rw [PluginMap.domains_eq_of_keys _ _ h2]
    exact hs
  | message_dispatch from_ to_key request response =>
    refine ⟨_, rfl, ?_⟩
    unfold MicroKernel.message_dispatch
    split
    · exact hs
    · dsimp only
      rw [PluginMap.domains_assign]
      exact hs
  | stream_dispatch stream =>
    refine ⟨_, rfl, ?_⟩
    unfold MicroKernel.stream_dispatch
    split
    · exact hs
    · exact hs

theorem MicroKernel.steps_sorted (k : MicroKernel T) (ops : List (Op T))
    (hs : List.Pairwise (fun a b => a < b) k.plugins_.domains) :
    ∃ k1, k.steps ops = some k1 ∧ List.Pairwise (fun a b => a < b) k1.plugins_.domains := by
  induction ops generalizing k with
  | nil => exact ⟨k, rfl, hs⟩
  | cons op rest ih =>
    obtain ⟨k1, h1, h2⟩ := MicroKernel.step_sorted k op hs
    obtain ⟨k2, h3, h4⟩ := ih k1 h2
    refine ⟨k2, ?_, h4⟩
    unfold MicroKernel.steps
    rw [h1]
    exact h3

end RegisterLemmas

/-- C1 (code evaluated at the failing input): with one registered plugin, domain 0,
whose `plugin_init` returns false, the bootstrap of `run()` completes, has called that
plugin's `plugin_start` after its `plugin_init`, and `find` still finds domain 0 in the
registry. -/
theorem run_bootstrap_keeps_init_failed_plugin :
    ((Demo.kernel_with false true).run_bootstrap).map
        (fun k => (k.trace, k.plugins_.domains,
          (k.plugins_.find (PluginKey.ofDomain 0)).isSome, k.running_)) =
      some ([Hook.plugin_init 0, Hook.plugin_start 0], [0], true, true) := by
  rfl

/-- C2 (code evaluated at the failing input): with one registered plugin, domain 0,
whose `plugin_init` returns true and whose `plugin_start` returns false, the bootstrap
of `run()` completes with that plugin still registered and with status
`E_PLUGIN_RUNING`, not `E_PLUGIN_BAD`. -/
theorem run_bootstrap_keeps_start_failed_plugin :
    ((Demo.kernel_with true false).run_bootstrap).map
        (fun k => (k.trace, List.map (fun e => (e.1.key, e.2.plugin_st_)) k.plugins_,
          k.running_)) =
      some ([Hook.plugin_init 0, Hook.plugin_start 0], [(0, E_PLUGIN_RUNING)], true) := by
  rfl

/-- C3 (code evaluated at the failing input): on an empty kernel that is not running,
`plugin_register` of a plugin with domain 0 returns true, the following
`plugin_unregister(0)` returns true, and `plugin_cnt()` is then 1, not the 0 it was
before the registration. -/
theorem plugin_unregister_keeps_entry :
    (MicroKernel.create 4 : MicroKernel Nat).plugin_cnt = 0 ∧
    (MicroKernel.create 4 : MicroKernel Nat).running_ = false ∧
    ((MicroKernel.create 4).plugin_register
      (Demo.ConstPlugin { name := "basic", version := "1.0.0", key := 0 } true true)).1 = true ∧
    ((Demo.kernel_with true true).plugin_unregister 0).1 = true ∧
    ((Demo.kernel_with true true).plugin_unregister 0).2.plugin_cnt = 1 := by
  refine ⟨rfl, rfl, rfl, rfl, rfl⟩

section Claims

variable {T : Type} [LinearOrder T]

/-- C4: for every limit `n` (a `uint32_t`) and every sequence of `n + 1` plugins with
pairwise distinct domains registered into an empty, not-running kernel constructed
with `plugin_limit = n`, the first `n` calls of `plugin_register` return true, the
`(n+1)`-th returns false, and exactly `n` entries are registered afterwards. -/
theorem plugin_register_up_to_limit (n : Nat) (hn : n < 2 ^ 32) (ps : List (IPlugin T))
    (hlen : ps.length = n + 1)
    (hd : (List.map (fun p => p.plugin_key_.key) ps).Nodup) :
    ((MicroKernel.create n : MicroKernel T).register_all ps).1 =
      List.replicate n true ++ [false] ∧
    ((MicroKernel.create n : MicroKernel T).register_all ps).2.plugin_cnt = n := by
  obtain ⟨qs, last, rfl⟩ : ∃ qs last, ps = qs ++ [last] := by
    rcases List.eq_nil_or_concat ps with h | ⟨qs, last, h⟩
    · rw [h] at hlen
      cases hlen
    · exact ⟨qs, last, by rw [h, List.concat_eq_append]⟩
  have hq : qs.length = n := by
    rw [List.length_append, List.length_singleton] at hlen
    omega
  rw [List.map_append] at hd
  have hlim : (MicroKernel.create n : MicroKernel T).limit_ = n := Nat.mod_eq_of_lt hn
  have h := MicroKernel.register_all_fresh (MicroKernel.create n : MicroKernel T) qs rfl
    (by rw [hlim, hq]; exact Nat.le_of_eq (Nat.zero_add n))
    (List.Nodup.of_append_left hd) (fun p _ hp => by cases hp)
  have hfull : ((MicroKernel.create n : MicroKernel T).register_all qs).2.limit_ ≤
      ((MicroKernel.create n : MicroKernel T).register_all qs).2.plugins_.length := by
    rw [h.2.2.1, h.2.1, hlim, hq]
    exact Nat.le_add_left _ _
  rw [MicroKernel.register_all_append, MicroKernel.register_all_cons,
    MicroKernel.plugin_register_full _ _ hfull]
  refine ⟨?_, ?_⟩
  · rw [h.1, hq]
    rfl
  · show (((MicroKernel.create n : MicroKernel T).register_all qs).2.plugins_).length = n
    rw [h.2.1, hq]
    exact Nat.zero_add n

/-- C5: every sequence of `plugin_register`, `plugin_unregister`, run-bootstrap,
`message_dispatch` and `stream_dispatch` operations applied to a freshly constructed
kernel (empty registry) runs to a state, and in that state the registry holds at most
one plugin for each domain value. -/
theorem registry_one_plugin_per_domain (plugin_limit : Nat)
    (ops : List (MicroKernel.Op T)) :
    ∃ k, (MicroKernel.create plugin_limit : MicroKernel T).steps ops = some k ∧
      ∀ d : T, (List.filter (fun e => decide (e.1.key = d)) k.plugins_).length ≤ 1 := by
  obtain ⟨k, h1, h2⟩ := MicroKernel.steps_sorted
    (MicroKernel.create plugin_limit : MicroKernel T) ops List.Pairwise.nil
  refine ⟨k, h1, fun d => PluginMap.filter_length_le_one _ ?_ d⟩
  exact h2.imp (fun h => ne_of_lt h)

/-- C6: `PluginKey` equality and ordering look at the domain alone, and for every
kernel whose registry holds a plugin with the domain of `plugin`, whatever the name and
version of `plugin` are, `plugin_register(plugin)` returns false and leaves the kernel
as it was: the registry (stored keys and plugins) is unchanged and no hook call is
added to the trace. -/
theorem plugin_register_duplicate_domain (k : MicroKernel T) (plugin : IPlugin T)
    (h : plugin.plugin_key_.key ∈ k.plugins_.domains) :
    (∀ a b : PluginKey T, (a.eq b = true ↔ a.key = b.key) ∧
      (a.lt b = true ↔ a.key < b.key) ∧ (a.gt b = true ↔ a.key > b.key)) ∧
    k.plugin_register plugin = (false, k) := by
  refine ⟨fun a b => ⟨?_, ?_, ?_⟩, MicroKernel.plugin_register_present k plugin h⟩
  · simp [PluginKey.eq]
  · simp [PluginKey.lt]
  · simp [PluginKey.gt]

/-- C7: for every kernel state, sender key, request and response buffer,
`message_dispatch` to a domain that is not registered returns false, leaves the
caller's response buffer as it was and leaves the kernel as it was (no hook call is
added to the trace); the request is passed by const reference. -/
theorem message_dispatch_unregistered (k : MicroKernel T) (from_ : PluginKey T)
    (to_key : T) (request response : PluginDataT) (h : to_key ∉ k.plugins_.domains) :
    k.message_dispatch from_ to_key request response = (false, response, k) := by
  unfold MicroKernel.message_dispatch
  rw [(PluginMap.find_eq_none_iff _ _).2 h]

/-- C8: for every entry `item` of a registry with one plugin per domain and every
request, if the target's message hook leaves a response buffer of length `L`, then
`message_dispatch` hands back to the caller exactly the buffer the hook left (same
type, length `L`, same data) and returns what the hook returned. -/
theorem message_dispatch_returns_hook_response (k : MicroKernel T)
    (item : PluginKey T × IPlugin T) (hn : k.plugins_.domains.Nodup) (hmem : item ∈ k.plugins_)
    (from_ : PluginKey T) (request response : PluginDataT) (L : Int)
    (hL : (item.2.call_message (MicroKernel.message_request from_ item.1 item.1.key request)
      (MicroKernel.message_response from_ item.1 item.1.key response)).2.1.data.len = L) :
    (k.message_dispatch from_ item.1.key request response).2.1 =
      (item.2.call_message (MicroKernel.message_request from_ item.1 item.1.key request)
        (MicroKernel.message_response from_ item.1 item.1.key response)).2.1.data ∧
    (k.message_dispatch from_ item.1.key request response).2.1.len = L ∧
    (k.message_dispatch from_ item.1.key request response).1 =
      (item.2.call_message (MicroKernel.message_request from_ item.1 item.1.key request)
        (MicroKernel.message_response from_ item.1 item.1.key response)).1 := by
  have hf := PluginMap.find_of_mem_nodup k.plugins_ item hn hmem (PluginKey.ofDomain item.1.key)
    rfl
  unfold MicroKernel.message_dispatch
  rw [hf]
  exact ⟨rfl, hL, rfl⟩

/-- C9: for every entry `item` of a registry with one plugin per domain, with domain
`d = item.1.key`, and every sender key `from_`, `message_dispatch(from_, d, request,
response)` adds exactly one hook call to the trace: the message hook of the plugin
registered under `d`, with a request envelope whose `from` is the caller's `from_`,
whose `to` is the stored key (registered name and version, key `d`) and whose data is
the request. -/
theorem message_dispatch_calls_hook_once (k : MicroKernel T)
    (item : PluginKey T × IPlugin T) (hn : k.plugins_.domains.Nodup) (hmem : item ∈ k.plugins_)
    (from_ : PluginKey T) (request response : PluginDataT) :
    ∃ res_msg : PluginMessage T,
      (k.message_dispatch from_ item.1.key request response).2.2.trace =
        k.trace ++ [Hook.message item.1.key
          { from_ := from_, to_ := item.1, data := request } res_msg] := by
  have hf := PluginMap.find_of_mem_nodup k.plugins_ item hn hmem (PluginKey.ofDomain item.1.key)
    rfl
  unfold MicroKernel.message_dispatch
  rw [hf]
  exact ⟨_, rfl⟩

end Claims

section QueueClaims

variable {T : Type}

theorem MicroSyncTaskQueue.pop_stopped (q : MicroSyncTaskQueue T) (t : T)
    (h : q.stop_ = true) : q.pop t = some (false, t, q) := by
  unfold MicroSyncTaskQueue.pop
  simp [h]

theorem MicroSyncTaskQueue.pop_n_stopped (q : MicroSyncTaskQueue T) (t : T) (n : Nat)
    (h : q.stop_ = true) : q.pop_n n t = some (List.replicate n false, t, q) := by
  induction n with
  | zero => rfl
  | succ n ih =>
    unfold MicroSyncTaskQueue.pop_n
    rw [MicroSyncTaskQueue.pop_stopped q t h]
    dsimp only
    rw [ih]
    rfl

/-- C10 (as stated, at a concrete input): a queue holding the one item 7 is stopped;
the next `pop` returns false and hands back no item, it does not succeed with 7. -/
theorem pop_after_stop_counterexample :
    (((MicroSyncTaskQueue.mk [7] 4 false).stop.pop_n 1 0).map (fun r => (r.1, r.2.1)) =
        some ([false], 0)) ∧
    ¬ (((MicroSyncTaskQueue.mk [7] 4 false).stop.pop_n 1 0).map (fun r => (r.1, r.2.1)) =
        some ([true], 7)) := by
  decide

/-- C10 (amended): for every queue holding at least one item when `stop()` is
signaled, each of the next `n` calls of `pop` returns false, leaves the output variable
and the queued items as they were, so the queue stays non-empty; and whenever a `pop`
returns, it returns false exactly when shutdown has been signaled, drained or not. -/
theorem pop_after_stop_returns_false (q : MicroSyncTaskQueue T) (t : T) (n : Nat)
    (hk : 1 ≤ q.queue_.length) :
    q.stop.pop_n n t = some (List.replicate n false, t, q.stop) ∧
    q.stop.queue_ = q.queue_ ∧ q.stop.empty = false ∧
    (∀ (q1 : MicroSyncTaskQueue T) (t1 : T) (r : Bool × T × MicroSyncTaskQueue T),
      q1.pop t1 = some r → (r.1 = false ↔ q1.stop_ = true)) := by
  refine ⟨MicroSyncTaskQueue.pop_n_stopped q.stop t n rfl, rfl, ?_, ?_⟩
  · show q.queue_.isEmpty = false
    cases hq : q.queue_ with
    | nil => rw [hq] at hk; cases hk
    | cons a l => rfl
  · intro q1 t1 r hr
    unfold MicroSyncTaskQueue.pop at hr
    cases hs : q1.stop_ with
    | true =>
      rw [hs] at hr
      simp only [Bool.true_or, Bool.not_true, Bool.false_eq_true, if_false, if_true,
        Option.some.injEq] at hr
      rw [← hr]
      simp
    | false =>
      rw [hs] at hr
      cases hq : q1.queue_ with
      | nil =>
        rw [hq] at hr
        simp at hr
      | cons a l =>
        rw [hq] at hr
        simp only [Bool.false_or, List.isEmpty_cons, Bool.not_false, Bool.not_true,
          Bool.false_eq_true, if_false, Option.some.injEq] at hr
        rw [← hr]
        simp

end QueueClaims

section KernelClaims

variable {T : Type} [LinearOrder T]

theorem PluginMap.find_insert (m : PluginMap T) (k : PluginKey T) (v : IPlugin T)
    (h : m.find k = none) : (m.insert k v).find k = some (k, v) := by
  induction m with
  | nil =>
    show List.find? _ [(k, v)] = _
    rw [List.find?_cons]
    have : (k, v).1.equiv k = true := PluginKey.equiv_self k
    rw [this]
  | cons e rest ih =>
    unfold PluginMap.find at h
    rw [List.find?_cons] at h
    cases hek : e.1.equiv k with
    | true => rw [hek] at h; cases h
    | false =>
      rw [hek] at h
      unfold PluginMap.insert
      split
      · show List.find? _ ((k, v) :: e :: rest) = _
        rw [List.find?_cons]
        have : (k, v).1.equiv k = true := PluginKey.equiv_self k
        rw [this]
      · split
        · show List.find? _ (e :: PluginMap.insert rest k v) = _
          rw [List.find?_cons, hek]
          exact ih h
        · rename_i h1 h2
          exfalso
          simp only [PluginKey.equiv, Bool.and_eq_false_imp, Bool.not_eq_true',
            Bool.not_eq_false'] at hek
          simp only [Bool.not_eq_true] at h1 h2
          have := hek h2
          rw [this] at h1
          cases h1

omit [LinearOrder T] in
theorem MicroKernel.run_scan_loop_eq (m : PluginMap T) (pool : List (thread_task_t T))
    (tr : List (Hook T)) :
    MicroKernel.run_scan_loop true m pool tr =
      (List.map (fun e => (e.1, e.2.call_task_en.2)) m,
        pool ++ List.map (fun e => thread_task_t.plugin_task e.1.key)
          (List.filter (fun e => e.2.call_task_en.1) m),
        tr ++ List.map (fun e => Hook.plugin_task_en e.1.key) m) := by
  induction m generalizing pool tr with
  | nil => simp [MicroKernel.run_scan_loop]
  | cons e rest ih =>
    unfold MicroKernel.run_scan_loop
    cases hen : e.2.call_task_en.1 with
    | true => simp [hen, ih, List.filter_cons]
    | false => simp [hen, ih, List.filter_cons]

omit [LinearOrder T] in
theorem MicroKernel.stop_loop_eq (m : PluginMap T) (tr : List (Hook T)) :
    MicroKernel.stop_loop m tr =
      (List.map (fun e => if E_PLUGIN_RUNING = e.2.plugin_status then
          (e.1, e.2.call_stop.2.call_exit.2.set_plugin_status E_PLUGIN_STOP) else e) m,
        tr ++ List.flatMap m (fun e => if E_PLUGIN_RUNING = e.2.plugin_status then
          [Hook.plugin_stop e.1.key, Hook.plugin_exit e.1.key] else [])) := by
  induction m generalizing tr with
  | nil => simp [MicroKernel.stop_loop]
  | cons e rest ih =>
    unfold MicroKernel.stop_loop
    by_cases hst : E_PLUGIN_RUNING = e.2.plugin_status
    · simp [hst, ih, List.flatMap_cons]
    · simp [hst, ih, List.flatMap_cons]

/-- C12 (code evaluated at the failing input): the kernel is running with one plugin,
domain 0, in status `E_PLUGIN_RUNING`; `plugin_unregister(0)` returns true and calls
`plugin_stop` then `plugin_exit` once each, but afterwards `plugin_key(0, ..)` still
finds the entry and `plugin_cnt()` is still 1: the entry is kept with status
`E_PLUGIN_STOP`. -/
theorem plugin_unregister_running_keeps_entry :
    ((Demo.kernel_with true true).run_bootstrap).map
        (fun k => (k.running_, List.map (fun e => (e.1.key, e.2.plugin_st_)) k.plugins_,
          k.plugin_cnt, (k.plugin_unregister 0).1,
          List.drop k.trace.length (k.plugin_unregister 0).2.trace,
          ((k.plugin_unregister 0).2.plugin_key 0 (PluginKey.ofDomain 0)).1,
          (k.plugin_unregister 0).2.plugin_cnt,
          List.map (fun e => (e.1.key, e.2.plugin_st_)) (k.plugin_unregister 0).2.plugins_)) =
      some (true, [(0, E_PLUGIN_RUNING)], 1, true,
        [Hook.plugin_stop 0, Hook.plugin_exit 0], true, 1, [(0, E_PLUGIN_STOP)]) := by
  rfl

/-- C13: for every running kernel below capacity and every plugin with an unregistered
domain `d`, `plugin_register` calls `plugin_init` and, only when that returned true,
`plugin_start`; when either returns false the call returns false and the registry is
unchanged; when both return true the call returns true and the plugin is stored under
its key with status `E_PLUGIN_RUNING`, the registry growing by one entry. -/
theorem plugin_register_while_running (k : MicroKernel T) (plugin : IPlugin T)
    (hr : k.running_ = true) (hc : k.plugins_.length < k.limit_)
    (hf : plugin.plugin_key_.key ∉ k.plugins_.domains) :
    (plugin.set_micro_kernel_srv.call_init.1 = false →
      k.plugin_register plugin =
        (false, { k with trace := k.trace ++ [Hook.plugin_init plugin.plugin_key_.key] })) ∧
    (plugin.set_micro_kernel_srv.call_init.1 = true →
      plugin.set_micro_kernel_srv.call_init.2.call_start.1 = false →
      k.plugin_register plugin =
        (false, { k with trace := k.trace ++ [Hook.plugin_init plugin.plugin_key_.key,
          Hook.plugin_start plugin.plugin_key_.key] })) ∧
    (plugin.set_micro_kernel_srv.call_init.1 = true →
      plugin.set_micro_kernel_srv.call_init.2.call_start.1 = true →
      (k.plugin_register plugin).1 = true ∧
      (k.plugin_register plugin).2.trace = k.trace ++
        [Hook.plugin_init plugin.plugin_key_.key, Hook.plugin_start plugin.plugin_key_.key] ∧
      (k.plugin_register plugin).2.plugins_.find plugin.plugin_key_ =
        some (plugin.plugin_key_,
          plugin.set_micro_kernel_srv.call_init.2.call_start.2.set_plugin_status
            E_PLUGIN_RUNING) ∧
      (k.plugin_register plugin).2.plugin_cnt = k.plugin_cnt + 1) := by
  have hnone := (PluginMap.find_eq_none_iff k.plugins_ plugin.plugin_key_).2 hf
  have hreg : k.plugin_register plugin =
      if !plugin.set_micro_kernel_srv.call_init.1 then
        (false, { k with trace := k.trace ++ [Hook.plugin_init plugin.plugin_key_.key] })
      else if !plugin.set_micro_kernel_srv.call_init.2.call_start.1 then
        (false, { k with trace := k.trace ++ [Hook.plugin_init plugin.plugin_key_.key,
          Hook.plugin_start plugin.plugin_key_.key] })
      else
        (true, { k with
          plugins_ := k.plugins_.insert plugin.plugin_key_
            (plugin.set_micro_kernel_srv.call_init.2.call_start.2.set_plugin_status
              E_PLUGIN_RUNING)
          trace := k.trace ++ [Hook.plugin_init plugin.plugin_key_.key,
            Hook.plugin_start plugin.plugin_key_.key] }) := by
    unfold MicroKernel.plugin_register
    rw [if_neg (not_le.2 hc), hnone]
    simp only [hr, if_true]
  refine ⟨?_, ?_, ?_⟩
  · intro hi
    rw [hreg, hi]
    rfl
  · intro hi hs
    rw [hreg, hi, hs]
    rfl
  · intro hi hs
    rw [hreg, hi, hs]
    refine ⟨rfl, rfl, ?_, ?_⟩
    · exact PluginMap.find_insert _ _ _ hnone
    · exact PluginMap.length_insert _ _ _ hnone

/-- C14: for every kernel state and domain `d`, `plugin_unregister(d)` returns false
exactly when no plugin with domain `d` is registered, and in that case the kernel is
left as it was: no hook call is added to the trace, and the registry with every
plugin's status is unchanged. -/
theorem plugin_unregister_false_iff (k : MicroKernel T) (d : T) :
    ((k.plugin_unregister d).1 = false ↔ d ∉ k.plugins_.domains) ∧
    (d ∉ k.plugins_.domains → k.plugin_unregister d = (false, k)) := by
  have hmiss : d ∉ k.plugins_.domains → k.plugin_unregister d = (false, k) := by
    intro h
    unfold MicroKernel.plugin_unregister
    rw [(PluginMap.find_eq_none_iff k.plugins_ (PluginKey.ofDomain d)).2 h]
  refine ⟨⟨?_, fun h => by rw [hmiss h]⟩, hmiss⟩
  intro hfalse hmem
  cases hfind : k.plugins_.find (PluginKey.ofDomain d) with
  | none => exact (PluginMap.find_eq_none_iff _ _).1 hfind hmem
  | some item =>
    unfold MicroKernel.plugin_unregister at hfalse
    rw [hfind] at hfalse
    dsimp only at hfalse
    split at hfalse
    · cases hfalse
    · split at hfalse
      · cases hfalse
      · cases hfalse

/-- C15: for every kernel state and domain `d`, `plugin_key(d, out)` returns true
exactly when a plugin with domain `d` is registered; when `d` is not registered it
returns false and leaves `out` as it was; and for an entry of a registry with one
plugin per domain, `out` becomes the key stored at registration (that plugin's name,
version and domain). -/
theorem plugin_key_lookup (k : MicroKernel T) (d : T) (out : PluginKey T) :
    ((k.plugin_key d out).1 = true ↔ d ∈ k.plugins_.domains) ∧
    (d ∉ k.plugins_.domains → k.plugin_key d out = (false, out)) ∧
    (∀ item ∈ k.plugins_, k.plugins_.domains.Nodup → item.1.key = d →
      k.plugin_key d out = (true, item.1)) := by
  have hmiss : d ∉ k.plugins_.domains → k.plugin_key d out = (false, out) := by
    intro h
    unfold MicroKernel.plugin_key
    rw [(PluginMap.find_eq_none_iff k.plugins_ (PluginKey.ofDomain d)).2 h]
  refine ⟨⟨?_, ?_⟩, hmiss, ?_⟩
  · intro htrue
    by_contra hmem
    rw [hmiss hmem] at htrue
    cases htrue
  · intro hmem
    cases hfind : k.plugins_.find (PluginKey.ofDomain d) with
    | none => exact absurd hmem ((PluginMap.find_eq_none_iff _ _).1 hfind)
    | some item =>
      unfold MicroKernel.plugin_key
      rw [hfind]
  · intro item hitem hn hd
    unfold MicroKernel.plugin_key
    rw [PluginMap.find_of_mem_nodup k.plugins_ item hn hitem (PluginKey.ofDomain d) hd.symm]

/-- C16: for every kernel state and stream `s`: when the target domain of `s` is not
registered, `stream_dispatch(s)` returns false, hands no task to the pool and leaves
`s` and the kernel as they were; when it is the domain of an entry of a registry with
one plugin per domain, the call returns true, sets the name and version of `s.to` to
those of the stored key, keeps the domain of `s.to` and `s.from`, and hands exactly one
task to the pool, whose body calls the stream hook of the target plugin with `s`. -/
theorem stream_dispatch_submits_one_task (k : MicroKernel T) (s : IPluginStream T) :
    (s.to_.key ∉ k.plugins_.domains → k.stream_dispatch s = (false, s, k)) ∧
    (∀ item ∈ k.plugins_, k.plugins_.domains.Nodup → item.1.key = s.to_.key →
      ∃ s1 : IPluginStream T,
        s1.from_ = s.from_ ∧ s1.to_.key = s.to_.key ∧
        s1.to_.name = item.1.name ∧ s1.to_.version = item.1.version ∧
        k.stream_dispatch s =
          (true, s1,
            { k with thread_pool_ := k.thread_pool_ ++ [thread_task_t.stream item.1.key s1] }) ∧
        MicroKernel.run_task (thread_task_t.stream item.1.key s1) item.2 =
          item.2.call_stream s1) := by
  refine ⟨?_, ?_⟩
  · intro h
    unfold MicroKernel.stream_dispatch
    rw [(PluginMap.find_eq_none_iff k.plugins_ s.to_).2 h]
  · intro item hitem hn hd
    refine ⟨{ s with to_ := { s.to_ with name := item.1.name, version := item.1.version } },
      rfl, rfl, rfl, rfl, ?_, rfl⟩
    unfold MicroKernel.stream_dispatch
    rw [PluginMap.find_of_mem_nodup k.plugins_ item hn hitem s.to_ hd.symm]

omit [LinearOrder T] in
/-- C17: for every registry state, one scan of the scheduling loop with the running
flag true calls `plugin_task_en` once on every registered plugin, in registry order,
hands to the pool exactly the cycle tasks of the plugins whose `plugin_task_en`
returned true, one each and none for the others, and keeps the stored keys. -/
theorem run_scan_submits_enabled (k : MicroKernel T) (hr : k.running_ = true) :
    k.run_scan.trace =
      k.trace ++ List.map (fun e => Hook.plugin_task_en e.1.key) k.plugins_ ∧
    k.run_scan.thread_pool_ =
      k.thread_pool_ ++ List.map (fun e => thread_task_t.plugin_task e.1.key)
        (List.filter (fun e => e.2.call_task_en.1) k.plugins_) ∧
    List.map Prod.fst k.run_scan.plugins_ = List.map Prod.fst k.plugins_ ∧
    k.run_scan.running_ = true := by
  unfold MicroKernel.run_scan
  simp only [hr, Bool.not_true, Bool.false_eq_true, if_false,
    MicroKernel.run_scan_loop_eq, List.map_map]
  exact ⟨trivial, trivial, rfl, trivial⟩

omit [LinearOrder T] in
/-- C18: when the kernel is not running `stop()` changes nothing and calls no hook;
when it is running, `stop()` completes with the running flag false, has called, in
registry order, `plugin_stop` then `plugin_exit` once each on exactly the plugins whose
status was `E_PLUGIN_RUNING`, has set those plugins to `E_PLUGIN_STOP` and left every
other entry as it was, so that no registered plugin has status `E_PLUGIN_RUNING`
afterwards. -/
theorem stop_tears_down_running_plugins (k : MicroKernel T) :
    (k.running_ = false → k.stop = some k) ∧
    (k.running_ = true → ∃ k1, k.stop = some k1 ∧ k1.running_ = false ∧
      k1.trace = k.trace ++ List.flatMap k.plugins_
        (fun e => if E_PLUGIN_RUNING = e.2.plugin_status then
          [Hook.plugin_stop e.1.key, Hook.plugin_exit e.1.key] else []) ∧
      k1.plugins_ = List.map (fun e => if E_PLUGIN_RUNING = e.2.plugin_status then
          (e.1, e.2.call_stop.2.call_exit.2.set_plugin_status E_PLUGIN_STOP) else e)
        k.plugins_ ∧
      ∀ e ∈ k1.plugins_, e.2.plugin_status ≠ E_PLUGIN_RUNING) := by
  refine ⟨?_, ?_⟩
  · intro hr
    unfold MicroKernel.stop
    rw [hr]
    rfl
  · intro hr
    have hstop : k.stop = some { k with
        running_ := false
        exit_ := true
        plugins_ := (MicroKernel.stop_loop k.plugins_ k.trace).1
        trace := (MicroKernel.stop_loop k.plugins_ k.trace).2 } := by
      unfold MicroKernel.stop MicroKernel.run_scan MicroKernel.stop_teardown
      simp only [hr, Bool.not_true, Bool.false_eq_true, if_false, Bool.not_false, if_true]
    refine ⟨_, hstop, rfl, ?_, ?_, ?_⟩
    · simp only [MicroKernel.stop_loop_eq]
    · simp only [MicroKernel.stop_loop_eq]
    · intro e he
      simp only [MicroKernel.stop_loop_eq, List.mem_map] at he
      obtain ⟨a, _, rfl⟩ := he
      by_cases hst : E_PLUGIN_RUNING = a.2.plugin_status
      · rw [if_pos hst]
        intro h
        cases h
      · rw [if_neg hst]
        exact fun h => hst h.symm

end KernelClaims

section QueueClaims2

variable {T : Type}

theorem MicroSyncTaskQueue.to_int_small (n : Nat) (h : n < 2 ^ 31) :
    MicroSyncTaskQueue.to_int n = n := by
  unfold MicroSyncTaskQueue.to_int
  omega

theorem MicroSyncTaskQueue.push_stopped (q : MicroSyncTaskQueue T) (obj : T)
    (h : q.stop_ = true) : q.push obj = some (false, q) := by
  unfold MicroSyncTaskQueue.push
  simp [h]

theorem MicroSyncTaskQueue.push_true (q q1 : MicroSyncTaskQueue T) (obj : T)
    (h : q.push obj = some (true, q1)) :
    q.stop_ = false ∧ q.count < q.max_size_ ∧ q1 = { q with queue_ := q.queue_ ++ [obj] } := by
  unfold MicroSyncTaskQueue.push at h
  cases hs : q.stop_ with
  | true => simp [hs] at h
  | false =>
    by_cases hc : q.count < q.max_size_
    · simp [hs, hc] at h
      exact ⟨rfl, hc, h.symm⟩
    · simp [hs, hc] at h

theorem MicroSyncTaskQueue.pop_true (q q1 : MicroSyncTaskQueue T) (t item : T)
    (h : q.pop t = some (true, item, q1)) :
    q.stop_ = false ∧ q.queue_ = item :: q1.queue_ ∧ q1 = { q with queue_ := q1.queue_ } := by
  unfold MicroSyncTaskQueue.pop at h
  cases hs : q.stop_ with
  | true => simp [hs] at h
  | false =>
    cases hq : q.queue_ with
    | nil => simp [hs, hq] at h
    | cons a l =>
      simp [hs, hq] at h
      obtain ⟨h1, h2⟩ := h
      subst h1
      subst h2
      exact ⟨rfl, rfl, rfl⟩

theorem MicroSyncTaskQueue.step_bounded (c : Int) (hi : c < 2 ^ 31)
    (q q1 : MicroSyncTaskQueue T) (call : MicroSyncTaskQueue.Call T)
    (hm : q.max_size_ = c) (hl : (q.queue_.length : Int) ≤ c)
    (h : q.step call = some q1) :
    q1.max_size_ = c ∧ (q1.queue_.length : Int) ≤ c := by
  cases call with
  | push obj =>
    dsimp only [MicroSyncTaskQueue.step] at h
    cases hp : q.push obj with
    | none => rw [hp] at h; cases h
    | some r =>
      rw [hp] at h
      simp only [Option.map_some', Option.some.injEq] at h
      subst h
      obtain ⟨b, q2⟩ := r
      cases b with
      | false =>
        unfold MicroSyncTaskQueue.push at hp
        split at hp
        · cases hp
        · split at hp
          · simp only [Option.some.injEq, Prod.mk.injEq, true_and] at hp
            subst hp
            exact ⟨hm, hl⟩
          · simp at hp
      | true =>
        obtain ⟨_, hc, rfl⟩ := MicroSyncTaskQueue.push_true q q2 obj hp
        refine ⟨hm, ?_⟩
        have hcount : q.count = q.queue_.length := by
          unfold MicroSyncTaskQueue.count
          exact MicroSyncTaskQueue.to_int_small _ (by omega)
        rw [hcount, hm] at hc
        simp only [List.length_append, List.length_singleton]
        push_cast
        omega
  | pop t =>
    dsimp only [MicroSyncTaskQueue.step] at h
    cases hp : q.pop t with
    | none => rw [hp] at h; cases h
    | some r =>
      rw [hp] at h
      simp only [Option.map_some', Option.some.injEq] at h
      subst h
      obtain ⟨b, item, q2⟩ := r
      cases b with
      | false =>
        unfold MicroSyncTaskQueue.pop at hp
        split at hp
        · cases hp
        · split at hp
          · simp only [Option.some.injEq, Prod.mk.injEq, true_and] at hp
            obtain ⟨_, rfl⟩ := hp
            exact ⟨hm, hl⟩
          · split at hp
            · simp at hp
            · cases hp
      | true =>
        obtain ⟨_, hq, hq2⟩ := MicroSyncTaskQueue.pop_true q q2 t item hp
        have hm2 : q2.max_size_ = q.max_size_ := by rw [hq2]
        refine ⟨hm2.trans hm, ?_⟩
        rw [hq, List.length_cons] at hl
        push_cast at hl
        show (q2.queue_.length : Int) ≤ c
        omega
  | stop =>
    dsimp only [MicroSyncTaskQueue.step] at h
    simp only [Option.some.injEq] at h
    subst h
    exact ⟨hm, hl⟩

theorem MicroSyncTaskQueue.steps_bounded (c : Int) (hi : c < 2 ^ 31)
    (calls : List (MicroSyncTaskQueue.Call T)) (q q1 : MicroSyncTaskQueue T)
    (hm : q.max_size_ = c) (hl : (q.queue_.length : Int) ≤ c)
    (h : q.steps calls = some q1) :
    q1.max_size_ = c ∧ (q1.queue_.length : Int) ≤ c := by
  induction calls generalizing q with
  | nil =>
    unfold MicroSyncTaskQueue.steps at h
    simp only [Option.some.injEq] at h
    subst h
    exact ⟨hm, hl⟩
  | cons call rest ih =>
    unfold MicroSyncTaskQueue.steps at h
    cases hs : q.step call with
    | none => rw [hs] at h; cases h
    | some q2 =>
      rw [hs] at h
      obtain ⟨h1, h2⟩ := MicroSyncTaskQueue.step_bounded c hi q q2 call hm hl hs
      exact ih q2 h1 h2 h

theorem MicroSyncTaskQueue.run_successful_fifo (B : Nat) (hB : B < 2 ^ 31)
    (ops : List (MicroSyncTaskQueue.Success T)) (q q1 : MicroSyncTaskQueue T) (t : T)
    (popped : List T) (hm : q.max_size_ ≤ B) (hl : q.queue_.length ≤ B)
    (h : q.run_successful t ops = some (popped, q1)) :
    q.queue_ ++ MicroSyncTaskQueue.pushed ops = popped ++ q1.queue_ ∧
    q1.max_size_ = q.max_size_ ∧ q1.queue_.length ≤ B := by
  induction ops generalizing q t popped with
  | nil =>
    unfold MicroSyncTaskQueue.run_successful at h
    simp only [Option.some.injEq, Prod.mk.injEq] at h
    obtain ⟨rfl, rfl⟩ := h
    exact ⟨by simp [MicroSyncTaskQueue.pushed], rfl, hl⟩
  | cons op rest ih =>
    cases op with
    | push obj =>
      unfold MicroSyncTaskQueue.run_successful at h
      cases hp : q.push obj with
      | none => rw [hp] at h; cases h
      | some r =>
        obtain ⟨b, q2⟩ := r
        cases b with
        | false => rw [hp] at h; cases h
        | true =>
          rw [hp] at h
          dsimp only at h
          obtain ⟨_, hc, rfl⟩ := MicroSyncTaskQueue.push_true q q2 obj hp
          have hcount : q.count = q.queue_.length := by
            unfold MicroSyncTaskQueue.count
            exact MicroSyncTaskQueue.to_int_small _ (by omega)
          rw [hcount] at hc
          have hl2 : (q.queue_ ++ [obj]).length ≤ B := by
            simp only [List.length_append, List.length_singleton]
            omega
          obtain ⟨h1, h2, h3⟩ :=
            ih { q with queue_ := q.queue_ ++ [obj] } t popped hm hl2 h
          refine ⟨?_, h2, h3⟩
          rw [← h1]
          simp [MicroSyncTaskQueue.pushed]
    | pop =>
      unfold MicroSyncTaskQueue.run_successful at h
      cases hp : q.pop t with
      | none => rw [hp] at h; cases h
      | some r =>
        obtain ⟨b, item, q2⟩ := r
        cases b with
        | false => rw [hp] at h; cases h
        | true =>
          rw [hp] at h
          dsimp only at h
          obtain ⟨_, hq, hq2⟩ := MicroSyncTaskQueue.pop_true q q2 t item hp
          have hm2 : q2.max_size_ = q.max_size_ := by rw [hq2]
          have hl2 : q2.queue_.length ≤ B := by
            rw [hq, List.length_cons] at hl
            omega
          cases hrest : q2.run_successful item rest with
          | none => rw [hrest] at h; cases h
          | some out =>
            rw [hrest] at h
            simp only [Option.some.injEq, Prod.mk.injEq] at h
            obtain ⟨rfl, rfl⟩ := h
            obtain ⟨h1, h2, h3⟩ := ih q2 item out.1 (by rw [hm2]; exact hm) hl2 hrest
            refine ⟨?_, h2.trans hm2, h3⟩
            rw [hq]
            simp only [MicroSyncTaskQueue.pushed, List.cons_append]
            rw [h1]

/-- C11: for every queue on which `stop()` has been signaled and every item, `push`
returns false and leaves the queue (its items included) as it was, whether the queue
is full or not; and for every queue a second `stop()` leaves the state reached by the
first one. -/
theorem push_after_stop_rejected (q : MicroSyncTaskQueue T) (obj : T)
    (h : q.stop_ = true) :
    q.push obj = some (false, q) ∧
    (∀ q0 : MicroSyncTaskQueue T, q0.stop.stop_ = true ∧ q0.stop.stop = q0.stop) :=
  ⟨MicroSyncTaskQueue.push_stopped q obj h, fun _ => ⟨rfl, rfl⟩⟩

/-- C19: in every state reached from the empty queue of capacity `c`, an `int` with
`c >= 0`, by a sequence of `push`, `pop` and `stop` calls each admitted in its turn (a
`push` only when stopped or `count() < capacity`), whatever `stop_` held at
construction, `count()` does not exceed `c` and `full()` is true exactly when
`count() >= c`. -/
theorem queue_count_within_capacity (c : Int) (hc : 0 ≤ c) (hi : c < 2 ^ 31)
    (stop_init : Bool) (calls : List (MicroSyncTaskQueue.Call T)) (q : MicroSyncTaskQueue T)
    (h : (MicroSyncTaskQueue.create c stop_init : MicroSyncTaskQueue T).steps calls = some q) :
    q.count ≤ c ∧ (q.full = true ↔ q.count ≥ c) := by
  obtain ⟨hm, hl⟩ := MicroSyncTaskQueue.steps_bounded c hi calls
    (MicroSyncTaskQueue.create c stop_init) q rfl (by simpa [MicroSyncTaskQueue.create] using hc) h
  have hcount : q.count = q.queue_.length := by
    unfold MicroSyncTaskQueue.count
    exact MicroSyncTaskQueue.to_int_small _ (by omega)
  refine ⟨by rw [hcount]; exact hl, ?_⟩
  unfold MicroSyncTaskQueue.full MicroSyncTaskQueue.to_size_t
  rw [hcount, hm, decide_eq_true_iff]
  omega

/-- C20: for every sequence of successful `push` and `pop` calls on a freshly
constructed queue that is not shut down (bound `size` an `int`), the items the pops
return, in order, followed by the items still queued, are the items pushed, in push
order (so the popped items are a prefix of the pushed ones); and in the state reached,
a successful `push` raises `count()` by exactly one and a successful `pop` lowers it by
exactly one. -/
theorem queue_is_fifo (size : Int) (hi : size < 2 ^ 31) (t : T)
    (ops : List (MicroSyncTaskQueue.Success T)) (popped : List T) (q : MicroSyncTaskQueue T)
    (h : (MicroSyncTaskQueue.create size false : MicroSyncTaskQueue T).run_successful t ops =
      some (popped, q)) :
    popped ++ q.queue_ = MicroSyncTaskQueue.pushed ops ∧
    popped <+: MicroSyncTaskQueue.pushed ops ∧
    (∀ (obj : T) (q1 : MicroSyncTaskQueue T),
      q.push obj = some (true, q1) → q1.count = q.count + 1) ∧
    (∀ (t1 item : T) (q1 : MicroSyncTaskQueue T),
      q.pop t1 = some (true, item, q1) → q1.count = q.count - 1) := by
  obtain ⟨h1, h2, h3⟩ := MicroSyncTaskQueue.run_successful_fifo size.toNat (by omega) ops
    (MicroSyncTaskQueue.create size false) q t popped
    (by show size ≤ (size.toNat : Int); omega) (Nat.zero_le _) h
  have hmax : q.max_size_ = size := h2
  have hcount : q.count = q.queue_.length := by
    unfold MicroSyncTaskQueue.count
    exact MicroSyncTaskQueue.to_int_small _ (by omega)
  have hfifo : popped ++ q.queue_ = MicroSyncTaskQueue.pushed ops := by
    rw [← h1]
    rfl
  refine ⟨hfifo, ⟨q.queue_, hfifo⟩, ?_, ?_⟩
  · intro obj q1 hp
    obtain ⟨_, hc, rfl⟩ := MicroSyncTaskQueue.push_true q q1 obj hp
    rw [hcount, hmax] at hc
    rw [hcount]
    unfold MicroSyncTaskQueue.count
    rw [MicroSyncTaskQueue.to_int_small _ (by
      simp only [List.length_append, List.length_singleton]
      omega)]
    simp
  · intro t1 item q1 hp
    obtain ⟨_, hq, _⟩ := MicroSyncTaskQueue.pop_true q q1 t1 item hp
    rw [hcount, hq]
    unfold MicroSyncTaskQueue.count
    rw [hq, List.length_cons] at h3
    rw [MicroSyncTaskQueue.to_int_small _ (by omega)]
    simp

end QueueClaims2

section LastClaims

variable {T : Type} [LinearOrder T]

omit [LinearOrder T] in
theorem MicroKernel.status_run_start_loop (m : PluginMap T) (bad : List (PluginKey T))
    (tr : List (Hook T)) :
    ∀ e ∈ (MicroKernel.run_start_loop m bad tr).1, e.2.plugin_status = E_PLUGIN_RUNING := by
  induction m generalizing bad tr with
  | nil =>
    intro e he
    cases he
  | cons x rest ih =>
    intro e he
    unfold MicroKernel.run_start_loop at he
    dsimp only at he
    split at he
    · rcases List.mem_cons.1 he with rfl | h
      · rfl
      · exact ih _ _ e h
    · rcases List.mem_cons.1 he with rfl | h
      · rfl
      · exact ih _ _ e h

/-- C21: for every kernel that is already running, a further call of `run()` returns
at once with the kernel as it was, whatever number of scans a fresh run would have
made: no hook call is added to the trace, no task is handed to the pool, and the
registry, every plugin's status and the running flag are unchanged; its bootstrap
phase is skipped alike. -/
theorem run_when_running_changes_nothing (k : MicroKernel T) (hr : k.running_ = true)
    (scans : Nat) : k.run scans = some k ∧ k.run_bootstrap = some k := by
  unfold MicroKernel.run MicroKernel.run_bootstrap
  rw [hr]
  exact ⟨rfl, rfl⟩

/-- C22: for every kernel that is not running, whatever its registry holds and whatever
the `plugin_init` and `plugin_start` hooks return, the bootstrap phase of `run()`
completes, keeps every stored key (so the registered domains are those from before and
no entry is removed) and leaves every registered plugin in status `E_PLUGIN_RUNING`. -/
theorem run_bootstrap_keeps_entries_running (k : MicroKernel T) (hr : k.running_ = false) :
    ∃ k1, k.run_bootstrap = some k1 ∧
      List.map Prod.fst k1.plugins_ = List.map Prod.fst k.plugins_ ∧
      k1.plugins_.domains = k.plugins_.domains ∧
      ∀ e ∈ k1.plugins_, e.2.plugin_status = E_PLUGIN_RUNING := by
  refine ⟨_, MicroKernel.run_bootstrap_eq k hr, ?_, ?_, ?_⟩
  · dsimp only
    rw [MicroKernel.keys_run_start_loop, MicroKernel.keys_run_init_loop]
  · apply PluginMap.domains_eq_of_keys
    dsimp only
    rw [MicroKernel.keys_run_start_loop, MicroKernel.keys_run_init_loop]
  · exact MicroKernel.status_run_start_loop _ _ _

/-- C23: for every entry `item` of a registry with one plugin per domain,
`message_dispatch` calls the target's message hook with a response envelope whose
`from` is the target's stored key, whose `to` is the caller's `from_` and whose data is
the caller's incoming response buffer, and the caller's response buffer becomes the
data of the envelope as the hook left it whatever the hook returned, in particular
when it returned false. -/
theorem message_dispatch_copies_back_always (k : MicroKernel T)
    (item : PluginKey T × IPlugin T) (hn : k.plugins_.domains.Nodup) (hmem : item ∈ k.plugins_)
    (from_ : PluginKey T) (request response : PluginDataT) :
    (k.message_dispatch from_ item.1.key request response).2.2.trace =
      k.trace ++ [Hook.message item.1.key
        { from_ := from_, to_ := item.1, data := request }
        { from_ := item.1, to_ := from_, data := response }] ∧
    (k.message_dispatch from_ item.1.key request response).2.1 =
      (item.2.call_message { from_ := from_, to_ := item.1, data := request }
        { from_ := item.1, to_ := from_, data := response }).2.1.data ∧
    ((item.2.call_message { from_ := from_, to_ := item.1, data := request }
        { from_ := item.1, to_ := from_, data := response }).1 = false →
      (k.message_dispatch from_ item.1.key request response).1 = false ∧
      (k.message_dispatch from_ item.1.key request response).2.1 =
        (item.2.call_message { from_ := from_, to_ := item.1, data := request }
          { from_ := item.1, to_ := from_, data := response }).2.1.data) := by
  have hf := PluginMap.find_of_mem_nodup k.plugins_ item hn hmem (PluginKey.ofDomain item.1.key)
    rfl
  have hd : k.message_dispatch from_ item.1.key request response =
      ((item.2.call_message { from_ := from_, to_ := item.1, data := request }
          { from_ := item.1, to_ := from_, data := response }).1,
        (item.2.call_message { from_ := from_, to_ := item.1, data := request }
          { from_ := item.1, to_ := from_, data := response }).2.1.data,
        { k with
          plugins_ := k.plugins_.assign item.1
            (item.2.call_message { from_ := from_, to_ := item.1, data := request }
              { from_ := item.1, to_ := from_, data := response }).2.2
          trace := k.trace ++ [Hook.message item.1.key
            { from_ := from_, to_ := item.1, data := request }
            { from_ := item.1, to_ := from_, data := response }] }) := by
    unfold MicroKernel.message_dispatch
    rw [hf]
    rfl
  rw [hd]
  exact ⟨rfl, rfl, fun h => ⟨h, rfl⟩⟩

end LastClaims

section Witnesses

open Demo

/-- Witness of C4 at limit 2 with three plugins of domains 0, 1 and 2. -/
theorem plugin_register_up_to_limit_witness :
    (2 < 2 ^ 32) ∧
    ((MicroKernel.create 2 : MicroKernel Nat).register_all
      [ConstPlugin basic_key true true, AlarmPlugin alarm_key,
        AlarmPlugin { name := "basic", version := "1.0.0", key := 2 }]).1 =
      List.replicate 2 true ++ [false] ∧
    ((MicroKernel.create 2 : MicroKernel Nat).register_all
      [ConstPlugin basic_key true true, AlarmPlugin alarm_key,
        AlarmPlugin { name := "basic", version := "1.0.0", key := 2 }]).2.plugin_cnt = 2 :=
  ⟨by norm_num,
    plugin_register_up_to_limit 2 (by norm_num)
      [ConstPlugin basic_key true true, AlarmPlugin alarm_key,
        AlarmPlugin { name := "basic", version := "1.0.0", key := 2 }] rfl (by decide)⟩

/-- Witness of C6: the demo kernel holds domain 1; a plugin with another name and
version and domain 1 is rejected and the kernel is unchanged. -/
theorem plugin_register_duplicate_domain_witness :
    (1 ∈ kernel_demo.plugins_.domains) ∧
    kernel_demo.plugin_register
      (ConstPlugin { name := "other", version := "9.9.9", key := 1 } true true) =
      (false, kernel_demo) :=
  ⟨by decide,
    (plugin_register_duplicate_domain kernel_demo
      (ConstPlugin { name := "other", version := "9.9.9", key := 1 } true true)
      (by decide)).2⟩

/-- Witness of C7: domain 5 is not registered in the demo kernel. -/
theorem message_dispatch_unregistered_witness :
    (5 ∉ kernel_demo.plugins_.domains) ∧
    kernel_demo.message_dispatch basic_key 5 demo_request demo_response =
      (false, demo_response, kernel_demo) :=
  ⟨by decide,
    message_dispatch_unregistered kernel_demo basic_key 5 demo_request demo_response
      (by decide)⟩

/-- Witness of C8: the alarm plugin of the demo writes a response of length 10. -/
theorem message_dispatch_returns_hook_response_witness :
    (kernel_demo.message_dispatch basic_key 1 demo_request demo_response).2.1 =
      { type := 0, len := 10, data := 2000 } ∧
    (kernel_demo.message_dispatch basic_key 1 demo_request demo_response).2.1.len = 10 ∧
    (kernel_demo.message_dispatch basic_key 1 demo_request demo_response).1 = true :=
  message_dispatch_returns_hook_response kernel_demo alarm_entry (by decide)
    (List.mem_cons_of_mem _ (List.mem_cons_self _ _)) basic_key demo_request demo_response 10
    rfl

/-- Witness of C9: a dispatch from the basic plugin to domain 1 of the demo kernel. -/
theorem message_dispatch_calls_hook_once_witness :
    ∃ res_msg : PluginMessage Nat,
      (kernel_demo.message_dispatch basic_key 1 demo_request demo_response).2.2.trace =
        kernel_demo.trace ++ [Hook.message 1
          { from_ := basic_key, to_ := alarm_key, data := demo_request } res_msg] :=
  message_dispatch_calls_hook_once kernel_demo alarm_entry (by decide)
    (List.mem_cons_of_mem _ (List.mem_cons_self _ _)) basic_key demo_request demo_response

/-- Witness of C10 (amended): a queue holding 7 and 8 is stopped and popped three
times. -/
theorem pop_after_stop_returns_false_witness :
    (1 ≤ (MicroSyncTaskQueue.mk [7, 8] 4 false).queue_.length) ∧
    (MicroSyncTaskQueue.mk [7, 8] 4 false).stop.pop_n 3 0 =
      some ([false, false, false], 0, MicroSyncTaskQueue.mk [7, 8] 4 true) :=
  ⟨by decide,
    (pop_after_stop_returns_false (MicroSyncTaskQueue.mk [7, 8] 4 false) 0 3 (by decide)).1⟩

/-- Witness of C11: a full queue (one item, bound 1) that has been stopped rejects a
push. -/
theorem push_after_stop_rejected_witness :
    ((MicroSyncTaskQueue.mk [7] 1 false).stop.stop_ = true) ∧
    (MicroSyncTaskQueue.mk [7] 1 false).stop.push 9 =
      some (false, MicroSyncTaskQueue.mk [7] 1 true) :=
  ⟨rfl, (push_after_stop_rejected ((MicroSyncTaskQueue.mk [7] 1 false).stop) 9 rfl).1⟩

/-- Witness of C13: a plugin with domain 2 whose hooks succeed is registered into the
running demo kernel. -/
theorem plugin_register_while_running_witness :
    kernel_running.running_ = true ∧
    (kernel_running.plugin_register (QuietPlugin quiet_key)).1 = true ∧
    (kernel_running.plugin_register (QuietPlugin quiet_key)).2.plugin_cnt =
      kernel_running.plugin_cnt + 1 :=
  ⟨rfl,
    ((plugin_register_while_running kernel_running (QuietPlugin quiet_key) rfl
      (by decide) (by decide)).2.2 rfl rfl).1,
    ((plugin_register_while_running kernel_running (QuietPlugin quiet_key) rfl
      (by decide) (by decide)).2.2 rfl rfl).2.2.2⟩

/-- Witness of C14: domain 5 is not registered in the demo kernel. -/
theorem plugin_unregister_false_iff_witness :
    (5 ∉ kernel_demo.plugins_.domains) ∧
    kernel_demo.plugin_unregister 5 = (false, kernel_demo) :=
  ⟨by decide, (plugin_unregister_false_iff kernel_demo 5).2 (by decide)⟩

/-- Witness of C15: looking up domain 1 in the demo kernel yields the stored key. -/
theorem plugin_key_lookup_witness :
    kernel_demo.plugin_key 1 (PluginKey.ofDomain 1) = (true, alarm_key) :=
  (plugin_key_lookup kernel_demo 1 (PluginKey.ofDomain 1)).2.2 alarm_entry
    (List.mem_cons_of_mem _ (List.mem_cons_self _ _)) (by decide) rfl

/-- Witness of C16: a stream towards domain 1 of the demo kernel. -/
theorem stream_dispatch_submits_one_task_witness :
    ∃ s1 : IPluginStream Nat,
      s1.from_ = basic_key ∧ s1.to_ = alarm_key ∧
      kernel_demo.stream_dispatch demo_stream =
        (true, s1,
          { kernel_demo with thread_pool_ := [thread_task_t.stream 1 s1] }) := by
  obtain ⟨s1, h1, h2, h3, h4, h5, _⟩ :=
    (stream_dispatch_submits_one_task kernel_demo demo_stream).2 alarm_entry
      (List.mem_cons_of_mem _ (List.mem_cons_self _ _)) (by decide) rfl
  refine ⟨s1, h1, ?_, h5⟩
  cases hto : s1.to_ with
  | mk n v key =>
    rw [hto] at h2 h3 h4
    simp only at h2 h3 h4
    rw [h2, h3, h4]
    rfl

/-- Witness of C17: one scan of the running demo kernel with plugins 0 and 1 enabled
and plugin 2 not. -/
theorem run_scan_submits_enabled_witness :
    kernel_mixed.running_ = true ∧
    kernel_mixed.run_scan.trace = kernel_mixed.trace ++
      [Hook.plugin_task_en 0, Hook.plugin_task_en 1, Hook.plugin_task_en 2] ∧
    kernel_mixed.run_scan.thread_pool_ =
      [thread_task_t.plugin_task 0, thread_task_t.plugin_task 1] :=
  ⟨rfl, (run_scan_submits_enabled kernel_mixed rfl).1,
    (run_scan_submits_enabled kernel_mixed rfl).2.1⟩

/-- Witness of C18: `stop()` on the running demo kernel. -/
theorem stop_tears_down_running_plugins_witness :
    kernel_running.running_ = true ∧
    ∃ k1, kernel_running.stop = some k1 ∧ k1.running_ = false ∧
      k1.trace = kernel_running.trace ++ [Hook.plugin_stop 0, Hook.plugin_exit 0,
        Hook.plugin_stop 1, Hook.plugin_exit 1] ∧
      ∀ e ∈ k1.plugins_, e.2.plugin_status ≠ E_PLUGIN_RUNING := by
  refine ⟨rfl, ?_⟩
  obtain ⟨k1, h1, h2, h3, _, h5⟩ := (stop_tears_down_running_plugins kernel_running).2 rfl
  exact ⟨k1, h1, h2, h3, h5⟩

/-- Witness of C19: a queue of capacity 2 after two pushes, a pop, a stop and a
rejected push. -/
theorem queue_count_within_capacity_witness :
    ((0 : Int) ≤ 2) ∧
    (MicroSyncTaskQueue.mk [8] 2 true).count ≤ 2 ∧
    ((MicroSyncTaskQueue.mk [8] 2 true).full = true ↔
      (MicroSyncTaskQueue.mk [8] 2 true).count ≥ 2) :=
  ⟨by decide,
    queue_count_within_capacity 2 (by decide) (by norm_num) false
      [MicroSyncTaskQueue.Call.push 7, MicroSyncTaskQueue.Call.push 8,
        MicroSyncTaskQueue.Call.pop 0, MicroSyncTaskQueue.Call.stop,
        MicroSyncTaskQueue.Call.push 9]
      (MicroSyncTaskQueue.mk [8] 2 true)
      (by simp [MicroSyncTaskQueue.steps, MicroSyncTaskQueue.step, MicroSyncTaskQueue.push,
        MicroSyncTaskQueue.pop, MicroSyncTaskQueue.count, MicroSyncTaskQueue.to_int,
        MicroSyncTaskQueue.create, MicroSyncTaskQueue.stop])⟩

/-- Witness of C20: on a queue of bound 2, push 7, push 8, pop, push 9, pop. -/
theorem queue_is_fifo_witness :
    [7, 8] ++ (MicroSyncTaskQueue.mk [9] 2 false).queue_ =
      MicroSyncTaskQueue.pushed
        [MicroSyncTaskQueue.Success.push 7, MicroSyncTaskQueue.Success.push 8,
          MicroSyncTaskQueue.Success.pop, MicroSyncTaskQueue.Success.push 9,
          MicroSyncTaskQueue.Success.pop] ∧
    [7, 8] <+: MicroSyncTaskQueue.pushed
        [MicroSyncTaskQueue.Success.push 7, MicroSyncTaskQueue.Success.push 8,
          MicroSyncTaskQueue.Success.pop, MicroSyncTaskQueue.Success.push 9,
          MicroSyncTaskQueue.Success.pop] :=
  ⟨(queue_is_fifo 2 (by norm_num) 0
      [MicroSyncTaskQueue.Success.push 7, MicroSyncTaskQueue.Success.push 8,
        MicroSyncTaskQueue.Success.pop, MicroSyncTaskQueue.Success.push 9,
        MicroSyncTaskQueue.Success.pop]
      [7, 8] (MicroSyncTaskQueue.mk [9] 2 false)
      (by simp [MicroSyncTaskQueue.run_successful, MicroSyncTaskQueue.push,
        MicroSyncTaskQueue.pop, MicroSyncTaskQueue.count, MicroSyncTaskQueue.to_int,
        MicroSyncTaskQueue.create])).1,
    (queue_is_fifo 2 (by norm_num) 0
      [MicroSyncTaskQueue.Success.push 7, MicroSyncTaskQueue.Success.push 8,
        MicroSyncTaskQueue.Success.pop, MicroSyncTaskQueue.Success.push 9,
        MicroSyncTaskQueue.Success.pop]
      [7, 8] (MicroSyncTaskQueue.mk [9] 2 false)
      (by simp [MicroSyncTaskQueue.run_successful, MicroSyncTaskQueue.push,
        MicroSyncTaskQueue.pop, MicroSyncTaskQueue.count, MicroSyncTaskQueue.to_int,
        MicroSyncTaskQueue.create])).2.1⟩

/-- Witness of C21: `run()` called again on the running demo kernel, for 5 scans. -/
theorem run_when_running_changes_nothing_witness :
    kernel_running.running_ = true ∧ kernel_running.run 5 = some kernel_running :=
  ⟨rfl, (run_when_running_changes_nothing kernel_running rfl 5).1⟩

/-- Witness of C22: the bootstrap of a kernel whose only plugin fails both
`plugin_init` and `plugin_start`. -/
theorem run_bootstrap_keeps_entries_running_witness :
    (kernel_with false false).running_ = false ∧
    ∃ k1, (kernel_with false false).run_bootstrap = some k1 ∧
      k1.plugins_.domains = [0] ∧
      ∀ e ∈ k1.plugins_, e.2.plugin_status = E_PLUGIN_RUNING := by
  refine ⟨rfl, ?_⟩
  obtain ⟨k1, h1, _, h3, h4⟩ := run_bootstrap_keeps_entries_running (kernel_with false false) rfl
  exact ⟨k1, h1, h3, h4⟩

/-- Witness of C23: a dispatch to the refusing plugin, domain 3, which writes a reply of
type 7 and length 3 and returns false. -/
theorem message_dispatch_copies_back_always_witness :
    (kernel_refusing.message_dispatch basic_key 3 demo_request demo_response).1 = false ∧
    (kernel_refusing.message_dispatch basic_key 3 demo_request demo_response).2.1 =
      { type := 7, len := 3, data := 2000 } :=
  (message_dispatch_copies_back_always kernel_refusing refusing_entry (by decide)
    (List.mem_cons_of_mem _ (List.mem_cons_of_mem _ (List.mem_cons_self _ _)))
    basic_key demo_request demo_response).2.2 rfl

end Witnesses

end Asty
